import Mathlib

/-
Verification development for the ETL reconciliation tool.

Shallow embedding of the core modules:
  backend/core/cleaning.py       (DataCleaner)
  backend/core/preprocessing.py  (DataProcessor)
  backend/core/master_updater.py (MasterBOMUpdater)
  backend/core/processing_preview.py (ProcessingPreview)
  backend/main.py                (process_preexisting_items / rollback_preexisting_changes)

Modelling conventions:
  - A pandas cell is a Cell: null (NaN/None), a string, or an integer.
    Floats are not modelled; no claim depends on float arithmetic.
  - A DataFrame is a Table: an ordered list of column names plus an ordered
    list of rows; each row is a pandas index label (Nat, as produced by the
    default RangeIndex) paired with the list of its cells, positionally
    aligned with the column list.
  - A column has pandas dtype object iff it contains at least one string
    value (colIsObject); otherwise it is treated as numeric.  This captures
    the dtypes actually arising in the pipeline, where every uploaded sheet
    passes through fix_arrow_compatibility.
  - Python string operations are modelled on the underlying character list;
    upper-casing uses Char.toUpper (ASCII, which is all the key-cleaning
    regex [^A-Z0-9] can retain anyway), and strip removes the ASCII
    whitespace characters.
  - Elementwise pandas comparison (Series == value) is pdEq: NaN compares
    unequal to everything including itself.  Python dict membership and
    drop_duplicates use structural equality on Cell.
  - Fallible Python code (KeyError, ValueError, raised HTTPException)
    becomes Except String.  Logging, float percentage fields, the capped
    detailed_log audit trail and human-readable report strings are elided:
    no claim mentions them.
  - All functions are pure; the source works on explicit DataFrame copies
    (df.copy()) so the functional reading is faithful: the caller-visible
    input table is never mutated.
-/

/-- A pandas scalar cell value: NaN/None, a string, or an integer. -/
inductive Cell where
  | null : Cell
  | str : String → Cell
  | num : Int → Cell
deriving DecidableEq, Repr

/-- The pd.isna predicate: true exactly on the null cell. -/
def pd_isna : Cell → Bool
  | .null => true
  | _ => false

/-- Python str() applied to a cell; str(float(nan)) prints nan. -/
def pyStr : Cell → String
  | .null => "nan"
  | .str s => s
  | .num n => toString n

/-- Elementwise pandas equality: NaN is unequal to everything, itself included. -/
def pdEq (a b : Cell) : Bool :=
  match a, b with
  | .null, _ => false
  | _, .null => false
  | a, b => decide (a = b)

/-- ASCII whitespace, the characters Python str.strip removes in this data. -/
def isWs (c : Char) : Bool :=
  c == ' ' || c == '\t' || c == '\n' || c == '\r'

/-- Trim whitespace from both ends of a character list (str.strip). -/
def trimChars (l : List Char) : List Char :=
  ((l.dropWhile isWs).reverse.dropWhile isWs).reverse

/-- Python str.strip(). -/
def pyTrim (s : String) : String := String.mk (trimChars s.data)

/-- Python str.upper(). -/
def pyUpper (s : String) : String := String.mk (s.data.map Char.toUpper)

/-- Python str.replace of every space by an underscore. -/
def spaceToUnderscore (s : String) : String :=
  String.mk (s.data.map (fun c => if c = ' ' then '_' else c))

/-- Column-name canonicalization col.strip().upper().replace(space, underscore),
used both by clean_master_yazaki (for matching) and clean_generic_sheet. -/
def colNameStd (s : String) : String := spaceToUnderscore (pyUpper (pyTrim s))

/-- Characters kept by the key-cleaning regex sub of [^A-Z0-9]. -/
def keepAlnumUpper (c : Char) : Bool :=
  ('A' ≤ c && c ≤ 'Z') || ('0' ≤ c && c ≤ '9')

/-- Regex removal of every character outside A-Z0-9. -/
def stripNonAlnum (s : String) : String := String.mk (s.data.filter keepAlnumUpper)

/-- The lambda str(x) if pd.notna(x) else the empty string. -/
def toStrOrEmpty (v : Cell) : String := if pd_isna v then "" else pyStr v

/-- The YAZAKI PN cell cleaner: stringify-null-to-empty, upper-case, strip non-alphanumerics. -/
def pnClean (v : Cell) : Cell := .str (stripNonAlnum (pyUpper (toStrOrEmpty v)))

/-- Characters removed by the generic cell cleaning regex sub of quote, double quote, plus, space. -/
def isQuotePlusSpace (c : Char) : Bool :=
  c == '\'' || c == '"' || c == '+' || c == ' '

/-- The generic text-cell cleaner: stringify-null-to-empty, drop quote/plus/space characters, strip. -/
def genCellClean (v : Cell) : Cell :=
  .str (pyTrim (String.mk ((toStrOrEmpty v).data.filter (fun c => !isQuotePlusSpace c))))

/-- The replace of the literal strings nan, None, NaN by the empty string in
fix_arrow_compatibility. -/
def replNanStr (s : String) : String :=
  if s = "nan" ∨ s = "None" ∨ s = "NaN" then "" else s

/-- A DataFrame: ordered column names and rows; each row is its pandas index
label paired with its cells, positionally aligned with cols. -/
structure Table where
  cols : List String
  rows : List (Nat × List Cell)
deriving DecidableEq, Repr

/-- Position of a column name in a table (first occurrence). -/
def colIdx (t : Table) (c : String) : Nat := t.cols.indexOf c

/-- Cell of a row at a column position; reading past the end yields null,
matching the NaN fill pandas uses when a row lacks a value. -/
def cellAt (r : List Cell) (j : Nat) : Cell := r.getD j .null

/-- Values of a named column, top to bottom. -/
def colVals (t : Table) (c : String) : List Cell :=
  t.rows.map (fun lr => cellAt lr.2 (colIdx t c))

/-- Apply a cell transformation to one column position of a row. -/
def mapColAt (j : Nat) (f : Cell → Cell) (r : List Cell) : List Cell :=
  r.set j (f (cellAt r j))

/-- Apply a cell transformation to every cell of a named column. -/
def mapCol (t : Table) (c : String) (f : Cell → Cell) : Table :=
  { t with rows := t.rows.map (fun lr => (lr.1, mapColAt (colIdx t c) f lr.2)) }

/-- Keep the rows satisfying a predicate; labels travel with their rows,
exactly like boolean-mask selection on a pandas index. -/
def filterRows (t : Table) (p : List Cell → Bool) : Table :=
  { t with rows := t.rows.filter (fun lr => p lr.2) }

/-- Rename every column named old to new (DataFrame.rename). -/
def renameCol (t : Table) (old new : String) : Table :=
  { t with cols := t.cols.map (fun c => if c = old then new else c) }

/-- Column has pandas dtype object: it holds at least one string. -/
def colIsObject (t : Table) (j : Nat) : Bool :=
  t.rows.any (fun lr => match cellAt lr.2 j with | .str _ => true | _ => false)

/-- Object-column cell fix of fix_arrow_compatibility: astype(str) then
replacement of nan-like strings by the empty string. -/
def fixObjCell (v : Cell) : Cell := .str (replNanStr (pyStr v))

/-- Numeric-column cell fix of fix_arrow_compatibility: to_numeric is the
identity on numbers, then fillna(0). -/
def fixNumCell (v : Cell) : Cell :=
  match v with
  | .null => .num 0
  | v => v

/-- The per-column cell fix applied by fix_arrow_compatibility. -/
def fixColFn (t : Table) (j : Nat) : Cell → Cell :=
  if colIsObject t j then fixObjCell else fixNumCell

/-- DataCleaner.fix_arrow_compatibility: per column, object columns are
stringified with nan-likes blanked, numeric columns have nulls filled with 0. -/
def fix_arrow_compatibility (t : Table) : Table :=
  { t with rows := t.rows.map (fun lr =>
      (lr.1, (List.range t.cols.length).map (fun j => fixColFn t j (cellAt lr.2 j)))) }

/-- Counters returned by clean_master_yazaki. -/
structure CleanMasterStats where
  original_rows : Nat
  original_cols : Nat
  columns_renamed : List String
  rows_with_null_yazaki_pn : Nat
  rows_cleaned : Nat
  final_rows : Nat
  final_cols : Nat
deriving DecidableEq, Repr

/-- DataCleaner.clean_master_yazaki: rename the first column whose
standardized name is YAZAKI_PN to the canonical YAZAKI PN, clean that column
per pnClean, drop rows whose cleaned key is empty, then fix dtypes. -/
def clean_master_yazaki (df : Table) : Table × CleanMasterStats :=
  let yazaki_cols := df.cols.filter (fun c => colNameStd c = "YAZAKI_PN")
  let renamedLog := match yazaki_cols with
    | [] => ([] : List String)
    | old :: _ => [old]
  let df1 := match yazaki_cols with
    | [] => df
    | old :: _ => renameCol df old "YAZAKI PN"
  if "YAZAKI PN" ∈ df1.cols then
    let j := colIdx df1 "YAZAKI PN"
    let nullCount := (colVals df1 "YAZAKI PN").countP pd_isna
    let df2 := mapCol df1 "YAZAKI PN" pnClean
    let df3 := filterRows df2 (fun r =>
      match cellAt r j with
      | .str s => decide (0 < s.length)
      | _ => false)
    let df4 := fix_arrow_compatibility df3
    (df4,
     { original_rows := df.rows.length, original_cols := df.cols.length,
       columns_renamed := renamedLog,
       rows_with_null_yazaki_pn := nullCount,
       rows_cleaned := df2.rows.length - df3.rows.length,
       final_rows := df4.rows.length, final_cols := df4.cols.length })
  else
    let df4 := fix_arrow_compatibility df1
    (df4,
     { original_rows := df.rows.length, original_cols := df.cols.length,
       columns_renamed := renamedLog,
       rows_with_null_yazaki_pn := 0, rows_cleaned := 0,
       final_rows := df4.rows.length, final_cols := df4.cols.length })

/-- Counters returned by clean_generic_sheet. -/
structure CleanGenericStats where
  original_rows : Nat
  original_cols : Nat
  columns_swapped : Bool
  string_columns_cleaned : Nat
deriving DecidableEq, Repr

/-- Swap the first two elements of a list. -/
def swapFirstTwo {α : Type} : List α → List α
  | a :: b :: rest => b :: a :: rest
  | l => l

/-- Reorder a table to a given list of column names; each requested name
takes the values of its first occurrence (DataFrame column selection). -/
def selectCols (t : Table) (newCols : List String) : Table :=
  { cols := newCols,
    rows := t.rows.map (fun lr => (lr.1, newCols.map (fun c => cellAt lr.2 (t.cols.indexOf c)))) }

/-- Clean the string cells of every object-dtype column. -/
def cleanObjectCols (t : Table) : Table :=
  { t with rows := t.rows.map (fun lr =>
      (lr.1, (List.range t.cols.length).map (fun j =>
        (if colIsObject t j then genCellClean else id) (cellAt lr.2 j)))) }

/-- DataCleaner.clean_generic_sheet: standardize every column name, swap the
first two columns when at least two exist, clean string cells of object
columns, then fix dtypes. -/
def clean_generic_sheet (df : Table) : Table × CleanGenericStats :=
  let df1 : Table := { df with cols := df.cols.map colNameStd }
  let df2 := if 2 ≤ df1.cols.length then selectCols df1 (swapFirstTwo df1.cols) else df1
  let df3 := cleanObjectCols df2
  let df4 := fix_arrow_compatibility df3
  (df4,
   { original_rows := df.rows.length, original_cols := df.cols.length,
     columns_swapped := decide (2 ≤ df1.cols.length),
     string_columns_cleaned :=
       ((List.range df2.cols.length).filter (fun j => colIsObject df2 j)).length })

/-- Insert to a Python dict under key k: overwrite an existing entry else append. -/
def dictInsert (d : List (Cell × Cell)) (k v : Cell) : List (Cell × Cell) :=
  if d.any (fun p => p.1 == k) then d.map (fun p => if p.1 = k then (k, v) else p)
  else d ++ [(k, v)]

/-- Build a Python dict from a key-value sequence (later entries overwrite earlier). -/
def toDict (ps : List (Cell × Cell)) : List (Cell × Cell) :=
  ps.foldl (fun d p => dictInsert d p.1 p.2) []

/-- Dict lookup. -/
def dictFind (d : List (Cell × Cell)) (k : Cell) : Option Cell :=
  (d.find? (fun p => p.1 == k)).map (·.2)

/-- DataFrame.drop_duplicates on the key at position j, keeping the first
occurrence of every key value (NaN keys are duplicates of each other). -/
def dedupByAux (j : Nat) : List (Nat × List Cell) → List Cell → List (Nat × List Cell)
  | [], _ => []
  | lr :: rest, seen =>
    if cellAt lr.2 j ∈ seen then dedupByAux j rest seen
    else lr :: dedupByAux j rest (cellAt lr.2 j :: seen)

/-- Deduplicate rows by the key at position j, keeping first occurrences. -/
def dedupBy (j : Nat) (rows : List (Nat × List Cell)) : List (Nat × List Cell) :=
  dedupByAux j rows []

/-- The key-to-lookup-value index the classifier builds from the deduplicated master. -/
def lookupIndex (master : Table) (key_col lookup_col : String) : List (Cell × Cell) :=
  let jm := colIdx master key_col
  let jl := colIdx master lookup_col
  toDict ((dedupBy jm master.rows).map (fun lr => (cellAt lr.2 jm, cellAt lr.2 jl)))

/-- The per-row status function of DataProcessor.add_activation_status:
MISSING_KEY on a null key, the looked-up value when found non-null, the
string 0 when found null, NOT_FOUND when absent from the index. -/
def get_status (lookup_dict : List (Cell × Cell)) (key : Cell) : Cell :=
  if pd_isna key then .str "MISSING_KEY"
  else
    match dictFind lookup_dict key with
    | some val => if pd_isna val then .str "0" else val
    | none => .str "NOT_FOUND"

/-- Distinct values of a list paired with their occurrence counts
(Series.value_counts, order irrelevant to the claims). -/
def valueCounts (l : List Cell) : List (Cell × Nat) :=
  l.dedup.map (fun v => (v, l.count v))

/-- Statistics returned by add_activation_status (float percentage fields and
the capped detailed_log elided). -/
structure LookupStats where
  master_records : Nat
  master_unique_records : Nat
  target_records : Nat
  lookup_dict_size : Nat
  duplicates_removed : Nat
  mapping_results : List (Cell × Nat)
  total_processed : Nat
deriving DecidableEq, Repr

/-- DataProcessor.add_activation_status: deduplicate the master by key, build
the key-to-value index, compute a status per target row and insert it as the
ACTIVATION_STATUS column at position 1 of a copy of the target.  Raises
KeyError when a named column is missing and ValueError when the target
already carries ACTIVATION_STATUS (pandas DataFrame.insert refuses an
existing column). -/
def add_activation_status (master target : Table) (key_col lookup_col : String) :
    Except String (Table × LookupStats) :=
  if key_col ∉ master.cols then .error "KeyError: key column not in master"
  else if lookup_col ∉ master.cols then .error "KeyError: lookup column not in master"
  else if key_col ∉ target.cols then .error "KeyError: key column not in target"
  else if "ACTIVATION_STATUS" ∈ target.cols then
    .error "ValueError: cannot insert ACTIVATION_STATUS, already exists"
  else
    let master_clean := dedupBy (colIdx master key_col) master.rows
    let lookup_dict := lookupIndex master key_col lookup_col
    let jt := colIdx target key_col
    let statuses := target.rows.map (fun lr => get_status lookup_dict (cellAt lr.2 jt))
    let df : Table :=
      { cols := target.cols.insertIdx 1 "ACTIVATION_STATUS",
        rows := target.rows.map (fun lr =>
          (lr.1, lr.2.insertIdx 1 (get_status lookup_dict (cellAt lr.2 jt)))) }
    .ok (df,
      { master_records := master.rows.length,
        master_unique_records := master_clean.length,
        target_records := target.rows.length,
        lookup_dict_size := lookup_dict.length,
        duplicates_removed := master.rows.length - master_clean.length,
        mapping_results := valueCounts statuses,
        total_processed := df.rows.length })

/-- One duplicate report entry of the zero-status handler. -/
structure DupInfo where
  yazaki_pn : Cell
  master_record : List Cell
  target_record : List Cell
deriving DecidableEq, Repr

/-- Aggregate counters returned by MasterBOMUpdater.process_updates. -/
structure UpdateStats where
  updated_count : Nat
  inserted_count : Nat
  duplicates_count : Nat
  skipped_count : Nat
  duplicates : List DupInfo
deriving DecidableEq, Repr

/-- Single-cell assignment df.loc at a row label; pandas loc-assignment to a
missing column expands the frame with that column, other rows reading NaN. -/
def locSet (t : Table) (label : Nat) (col : String) (v : Cell) : Table :=
  if col ∈ t.cols then
    let j := colIdx t col
    { t with rows := t.rows.map (fun lr => if lr.1 = label then (lr.1, lr.2.set j v) else lr) }
  else
    { cols := t.cols ++ [col],
      rows := t.rows.map (fun lr => if lr.1 = label then (lr.1, lr.2 ++ [v]) else lr) }

/-- The statement master_df.loc at label len(master_df) assigned a new row:
when that label already exists the existing row is overwritten, otherwise
the row is appended with that fresh label. -/
def locAppend (t : Table) (newRow : List Cell) : Table :=
  let n := t.rows.length
  if (t.rows.map (·.1)).contains n then
    { t with rows := t.rows.map (fun lr => if lr.1 = n then (lr.1, newRow) else lr) }
  else
    { t with rows := t.rows ++ [(n, newRow)] }

/-- MasterBOMUpdater.prepare_new_record: a row over the master column set;
columns shared with the source record are copied, except ACTIVATION_STATUS,
and all other master columns default to the empty string. -/
def prepare_new_record (src_cols : List String) (src : List Cell) (master : Table) : List Cell :=
  master.cols.map (fun c =>
    if c ∈ src_cols ∧ c ≠ "ACTIVATION_STATUS" then cellAt src (src_cols.indexOf c)
    else .str "")

/-- MasterBOMUpdater update_existing_records: for each D record, set the
lookup column of the first master row whose key equals the record key to the
processed marker D; a record with no match is skipped silently.  Accessing
the key column of a record or of the master raises KeyError. -/
def update_existing_records (master : Table) (records : List (Nat × List Cell))
    (tcols : List String) (lookup_column key_column : String) : Except String (Table × Nat) :=
  match records with
  | [] => .ok (master, 0)
  | r :: rs =>
    if key_column ∉ tcols then .error "KeyError: key column not in target record"
    else if key_column ∉ master.cols then .error "KeyError: key column not in master"
    else
      let pn := cellAt r.2 (tcols.indexOf key_column)
      let jm := colIdx master key_column
      let matching := master.rows.filter (fun lr => pdEq (cellAt lr.2 jm) pn)
      match matching.head? with
      | some m0 =>
        match update_existing_records (locSet master m0.1 lookup_column (.str "D")) rs
                tcols lookup_column key_column with
        | .ok (m2, c) => .ok (m2, c + 1)
        | .error e => .error e
      | none => update_existing_records master rs tcols lookup_column key_column

/-- MasterBOMUpdater handle_zero_status: a zero-status record whose key
already exists in the master is reported as a duplicate; otherwise a new
record is prepared and inserted. -/
def handle_zero_status (master : Table) (records : List (Nat × List Cell))
    (tcols : List String) (key_column : String) :
    Except String (Table × List DupInfo × Nat) :=
  match records with
  | [] => .ok (master, [], 0)
  | r :: rs =>
    if key_column ∉ tcols then .error "KeyError: key column not in target record"
    else if key_column ∉ master.cols then .error "KeyError: key column not in master"
    else
      let pn := cellAt r.2 (tcols.indexOf key_column)
      let existing := master.rows.filter (fun lr => pdEq (cellAt lr.2 (colIdx master key_column)) pn)
      match existing.head? with
      | some m0 =>
        match handle_zero_status master rs tcols key_column with
        | .ok (m2, dups, ins) =>
          .ok (m2, { yazaki_pn := pn, master_record := m0.2, target_record := r.2 } :: dups, ins)
        | .error e => .error e
      | none =>
        match handle_zero_status (locAppend master (prepare_new_record tcols r.2 master)) rs
                tcols key_column with
        | .ok (m2, dups, ins) => .ok (m2, dups, ins + 1)
        | .error e => .error e

/-- MasterBOMUpdater insert_new_records: every NOT_FOUND record is prepared
and inserted as a new master record. -/
def insert_new_records (master : Table) (records : List (Nat × List Cell))
    (tcols : List String) (key_column : String) : Except String (Table × Nat) :=
  match records with
  | [] => .ok (master, 0)
  | r :: rs =>
    if key_column ∉ tcols then .error "KeyError: key column not in target record"
    else
      match insert_new_records (locAppend master (prepare_new_record tcols r.2 master)) rs
              tcols key_column with
      | .ok (m2, c) => .ok (m2, c + 1)
      | .error e => .error e

/-- The rows of the target carrying a given activation status string;
elementwise pandas comparison, so null status cells match nothing. -/
def statusGroup (target : Table) (s : String) : List (Nat × List Cell) :=
  target.rows.filter (fun lr => pdEq (cellAt lr.2 (colIdx target "ACTIVATION_STATUS")) (.str s))

/-- MasterBOMUpdater.process_updates: on a copy of the master, process the
target rows grouped by status in the fixed order X, D, 0, NOT_FOUND. -/
def process_updates (master target : Table) (lookup_column key_column : String) :
    Except String (Table × UpdateStats) :=
  if "ACTIVATION_STATUS" ∉ target.cols then
    .error "ValueError: Target data must have ACTIVATION_STATUS column"
  else
    let skipped := (statusGroup target "X").length
    match update_existing_records master (statusGroup target "D") target.cols
            lookup_column key_column with
    | .error e => .error e
    | .ok (m1, updated) =>
      match handle_zero_status m1 (statusGroup target "0") target.cols key_column with
      | .error e => .error e
      | .ok (m2, dups, ins0) =>
        match insert_new_records m2 (statusGroup target "NOT_FOUND") target.cols key_column with
        | .error e => .error e
        | .ok (m3, insN) =>
          .ok (m3,
            { updated_count := updated, inserted_count := ins0 + insN,
              duplicates_count := dups.length, skipped_count := skipped,
              duplicates := dups })

/-- Statistics block of a processing preview. -/
structure PreviewStatistics where
  total_target_records : Nat
  records_to_update : Nat
  records_to_insert : Nat
  duplicates_found : Nat
  records_to_skip : Nat
deriving DecidableEq, Repr

/-- The method ProcessingPreview.generate_preview invokes on its
DataProcessor instance.  preprocessing.py defines no perform_lookup on
DataProcessor (its lookup method is add_activation_status, and even its
parameter order differs), so the attribute access raises unconditionally. -/
def perform_lookup (master target : Table) (lookup_column key_column : String) :
    Except String Table :=
  .error "AttributeError: DataProcessor object has no attribute perform_lookup"

/-- Risk classification from the projected change total. -/
def assess_risk_level (stats : PreviewStatistics) : String :=
  let total_changes := stats.records_to_update + stats.records_to_insert
  if total_changes = 0 then "NONE"
  else if total_changes ≤ 10 then "LOW"
  else if total_changes ≤ 100 then "MEDIUM"
  else "HIGH"

/-- The counting logic of generate_preview over a lookup result (lines 49 to
89 of processing_preview.py): D rows are counted in full as would-update;
zero-status rows are partitioned against the master into duplicates and
insertables, but both lists are truncated to 10 entries before being
counted; NOT_FOUND rows are counted as would-insert, again after a
truncation to 10; X rows are counted as skipped. -/
def preview_statistics_of (master lookup_result : Table) (key_column : String) :
    PreviewStatistics :=
  let grp := statusGroup lookup_result
  let jm := colIdx master key_column
  let zeroDup := (grp "0").filter (fun r =>
    master.rows.any (fun lr => pdEq (cellAt lr.2 jm) (cellAt r.2 (colIdx lookup_result key_column))))
  let zeroNew := (grp "0").filter (fun r =>
    !master.rows.any (fun lr => pdEq (cellAt lr.2 jm) (cellAt r.2 (colIdx lookup_result key_column))))
  { total_target_records := lookup_result.rows.length,
    records_to_update := (grp "D").length,
    records_to_insert := (zeroNew.take 10).length + ((grp "NOT_FOUND").take 10).length,
    duplicates_found := (zeroDup.take 10).length,
    records_to_skip := (grp "X").length }

/-- ProcessingPreview.generate_preview: perform the lookup on copies of the
inputs, then count the projected changes per status group.  The lookup call
names a method that does not exist, so the whole preview raises. -/
def generate_preview (master target : Table) (lookup_column key_column : String) :
    Except String PreviewStatistics :=
  match perform_lookup master target lookup_column key_column with
  | .error e => .error e
  | .ok lookup_result => .ok (preview_statistics_of master lookup_result key_column)

/-- Metadata stored beside the pre-change backup of the master. -/
structure BackupMeta where
  column_name : String
  updated_count : Nat
deriving DecidableEq, Repr

/-- The per-file state the two endpoints operate on: the working master and
target sheets plus the single backup slot (the original_master_backup and
backup_metadata keys of the file storage entry; a missing key is none). -/
structure AppState where
  master : Table
  target : Table
  backup : Option (Table × BackupMeta)
deriving Repr

/-- The stringify-and-strip normalization applied to the YAZAKI PN column of
the master copy in process_preexisting_items. -/
def stripPn (v : Cell) : Cell := .str (pyTrim (pyStr v))

/-- The master copy process_preexisting_items works on: the YAZAKI PN column
stringified and stripped. -/
def preexistingMasterCopy (master : Table) : Table := mapCol master "YAZAKI PN" stripPn

/-- The update mask of process_preexisting_items: master rows whose YAZAKI PN
is absent from the target PN set and whose status cell strips to X. -/
def preexistingMask (masterCopy : Table) (targetPns : List String) (jc : Nat) :
    Nat × List Cell → Bool :=
  fun lr =>
    !(targetPns.contains (pyStr (cellAt lr.2 (colIdx masterCopy "YAZAKI PN")))) &&
      (pyTrim (pyStr (cellAt lr.2 jc)) == "X")

/-- The endpoint process_preexisting_items of backend/main.py: on a copy of
the master with stripped part numbers, flip X to D in the chosen column for
every part absent from the target sheet; store the pre-change copy in the
backup slot (overwriting any previous backup) and commit the updated copy.
Distribution summaries and logging are elided; guard failures are the
HTTPException branches. -/
def process_preexisting_items (s : AppState) (column_name : String) :
    Except String (AppState × Nat) :=
  if column_name ∉ s.master.cols then .error "Column not found in master sheet"
  else if "YAZAKI PN" ∉ s.master.cols then .error "YAZAKI PN column not found in master sheet"
  else if "YAZAKI PN" ∉ s.target.cols then .error "YAZAKI PN column not found in target sheet"
  else
    let target_pns := (colVals s.target "YAZAKI PN").map (fun v => pyTrim (pyStr v))
    let master_copy := preexistingMasterCopy s.master
    let jc := colIdx master_copy column_name
    let mask := preexistingMask master_copy target_pns jc
    let updated_count := master_copy.rows.countP mask
    let updated : Table :=
      { master_copy with rows := master_copy.rows.map (fun lr =>
          if mask lr then (lr.1, lr.2.set jc (.str "D")) else lr) }
    let meta : BackupMeta := { column_name := column_name, updated_count := updated_count }
    .ok ({ s with master := updated, backup := some (master_copy, meta) }, updated_count)

/-- The endpoint rollback_preexisting_changes of backend/main.py: restore the
stored backup as the master sheet and clear the slot; with no backup held it
raises the not-found HTTPException before touching any state. -/
def rollback_preexisting_changes (s : AppState) : Except String (AppState × Table) :=
  match s.backup with
  | none => .error "No backup available for rollback"
  | some (b, _) => .ok ({ s with master := b, backup := none }, b)

/-- Drop the target rows whose activation status is MISSING_KEY. -/
def dropMissingKey (t : Table) : Table :=
  filterRows t (fun r => !(pdEq (cellAt r (colIdx t "ACTIVATION_STATUS")) (.str "MISSING_KEY")))

/-- Concrete master for the C2 counterexample: key A with a null lookup value. -/
def c2Master : Table := { cols := ["K", "L"], rows := [(0, [.str "A", .null])] }

/-- Concrete target for the C2 counterexample: one row with an empty-string key. -/
def c2Target : Table := { cols := ["K"], rows := [(0, [.str ""])] }

/-- The classifier output on c2Target. -/
def c2Ann : Table := { cols := ["K", "ACTIVATION_STATUS"], rows := [(0, [.str "", .str "NOT_FOUND"])] }

/-- Master with non-contiguous row labels 0 and 2, as left behind by
clean_master_yazaki after dropping the empty-key row labelled 1. -/
def c10Master : Table := { cols := ["YAZAKI PN"], rows := [(0, [.str "A"]), (2, [.str "B"])] }

/-- One NOT_FOUND target row to be inserted into c10Master. -/
def c10Target : Table :=
  { cols := ["YAZAKI PN", "ACTIVATION_STATUS"], rows := [(0, [.str "C", .str "NOT_FOUND"])] }

/-- Concrete state for the C4 witness. -/
def c4State : AppState :=
  { master := { cols := ["YAZAKI PN", "ST"],
                rows := [(0, [.str " A ", .str "X"]), (1, [.str "B", .str "X"])] },
    target := { cols := ["YAZAKI PN"], rows := [(0, [.str "B"])] },
    backup := none }

/-- The state process_preexisting_items produces from c4State on column ST. -/
def c4After : AppState :=
  { master := { cols := ["YAZAKI PN", "ST"],
                rows := [(0, [.str "A", .str "D"]), (1, [.str "B", .str "X"])] },
    target := { cols := ["YAZAKI PN"], rows := [(0, [.str "B"])] },
    backup := some ({ cols := ["YAZAKI PN", "ST"],
                      rows := [(0, [.str "A", .str "X"]), (1, [.str "B", .str "X"])] },
                    { column_name := "ST", updated_count := 1 }) }

/-- Concrete master for the C9 theorems. -/
def c9Master : Table := { cols := ["K", "L"], rows := [(0, [.str "A", .str "X"])] }

/-- An already-annotated target: re-running the classifier on it must be examined. -/
def c9Ann : Table := { cols := ["K", "ACTIVATION_STATUS"], rows := [(0, [.str "A", .str "X"])] }

/-- A target whose key column sits at position 1, not 0. -/
def c9KeyNotFirst : Table := { cols := ["B", "K"], rows := [(0, [.str "x", .str "A"])] }

/-- A fresh un-annotated target for the C9 witness. -/
def c9Fresh : Table := { cols := ["K"], rows := [(0, [.str "A"])] }

/-- Concrete master with a duplicated key A for the C8 witness. -/
def c8Master : Table :=
  { cols := ["K", "L"],
    rows := [(0, [.str "A", .str "X"]), (1, [.str "A", .str "Y"]), (2, [.str "B", .str "Z"])] }

/-- Concrete target for the C8 witness. -/
def c8Target : Table := { cols := ["K"], rows := [(0, [.str "A"])] }

/-- The classifier output on c8Target. -/
def c8Df : Table := { cols := ["K", "ACTIVATION_STATUS"], rows := [(0, [.str "A", .str "X"])] }

/-- The classifier statistics on c8Master and c8Target. -/
def c8Stats : LookupStats :=
  { master_records := 3, master_unique_records := 2, target_records := 1,
    lookup_dict_size := 2, duplicates_removed := 1,
    mapping_results := [(.str "X", 1)], total_processed := 1 }

/-- Concrete master whose lookup value FOO is outside the five-status list. -/
def c3Master : Table := { cols := ["K", "L"], rows := [(0, [.str "A", .str "FOO"])] }

/-- Concrete target for the C3 theorems. -/
def c3Target : Table := { cols := ["K"], rows := [(0, [.str "A"])] }

/-- The classifier output on c3Target. -/
def c3Df : Table := { cols := ["K", "ACTIVATION_STATUS"], rows := [(0, [.str "A", .str "FOO"])] }

/-- The classifier statistics on c3Master and c3Target. -/
def c3Stats : LookupStats :=
  { master_records := 1, master_unique_records := 1, target_records := 1,
    lookup_dict_size := 1, duplicates_removed := 0,
    mapping_results := [(.str "FOO", 1)], total_processed := 1 }

/-- Concrete master for the C6 witness. -/
def c6Master : Table :=
  { cols := ["YAZAKI PN", "DESC", "ACTIVATION_STATUS"],
    rows := [(0, [.str "A", .str "d0", .str "X"])] }

/-- Concrete target columns for the C6 witness. -/
def c6Tcols : List String := ["YAZAKI PN", "ACTIVATION_STATUS", "EXTRA"]

/-- Concrete target record for the C6 witness. -/
def c6Rec : Nat × List Cell := (0, [.str "B", .str "NOT_FOUND", .str "e"])

/-- Concrete master with a duplicated key for the C5 witness. -/
def c5Master : Table :=
  { cols := ["YAZAKI PN", "ST"], rows := [(0, [.str "A", .str "0"]), (1, [.str "A", .str "0"])] }

/-- Concrete target columns for the C5 witness. -/
def c5Tcols : List String := ["YAZAKI PN", "ACTIVATION_STATUS"]

/-- Concrete D-status record for the C5 witness. -/
def c5Rec : Nat × List Cell := (0, [.str "A", .str "D"])

/-- The rename step of clean_master_yazaki: the first column whose
standardized name is YAZAKI_PN is renamed to YAZAKI PN. -/
def cmRename (df : Table) : Table :=
  match df.cols.filter (fun c => colNameStd c = "YAZAKI_PN") with
  | [] => df
  | old :: _ => renameCol df old "YAZAKI PN"

/-- The column-cleaning tail of clean_master_yazaki: clean the key cells,
drop empty keys, fix dtypes; without a key column only the dtype fix runs. -/
def cmCleanCol (df1 : Table) : Table :=
  if "YAZAKI PN" ∈ df1.cols then
    fix_arrow_compatibility (filterRows (mapCol df1 "YAZAKI PN" pnClean)
      (fun r => match cellAt r (colIdx df1 "YAZAKI PN") with
        | .str s => decide (0 < s.length)
        | _ => false))
  else fix_arrow_compatibility df1

/-- Concrete two-column table for the C7 counterexample. -/
def c7Table : Table := { cols := ["A", "B"], rows := [(0, [.str "x", .str "y"])] }

/-- Concrete one-column table for the C7 witness. -/
def c7OneCol : Table := { cols := [" a col "], rows := [(0, [.str " x+ "]), (1, [.null])] }

/-- If elementwise pandas equality holds, the cells are equal. -/
theorem pdEq_true_eq {a b : Cell} (h : pdEq a b = true) : a = b := by
  unfold pdEq at h
  cases a <;> cases b <;> simp_all

/-- Removing MISSING_KEY rows leaves every other status group unchanged. -/
theorem statusGroup_dropMissingKey (t : Table) (s : String) (hs : s ≠ "MISSING_KEY") :
    statusGroup (dropMissingKey t) s = statusGroup t s := by
  have hcol : colIdx (dropMissingKey t) "ACTIVATION_STATUS" = colIdx t "ACTIVATION_STATUS" := rfl
  show ((t.rows.filter _).filter fun lr =>
          pdEq (cellAt lr.2 (colIdx (dropMissingKey t) "ACTIVATION_STATUS")) (.str s)) =
        t.rows.filter _
  simp only [hcol]
  rw [List.filter_filter]
  apply List.filter_congr
  intro a _
  by_cases hp : pdEq (cellAt a.2 (colIdx t "ACTIVATION_STATUS")) (.str s) = true
  · have he := pdEq_true_eq hp
    simp [hp, he, pdEq, hs]
  · simp [hp]

/-- C1: generate_preview cannot report any count: its first step invokes the
nonexistent DataProcessor.perform_lookup, so every call raises the
AttributeError instead of producing statistics. -/
theorem c1_generate_preview_always_raises (master target : Table)
    (lookup_column key_column : String) :
    generate_preview master target lookup_column key_column =
      .error "AttributeError: DataProcessor object has no attribute perform_lookup" := rfl

/-- C2 counterexample: a Target row whose key cell is the empty string is
classified NOT_FOUND, not MISSING_KEY, and applying the dispositions to it
inserts a Master row, so it is neither excluded from the reports nor free of
Master mutations. -/
theorem c2_empty_string_key_cex :
    add_activation_status c2Master c2Target "K" "L" =
      .ok (c2Ann,
        { master_records := 1, master_unique_records := 1, target_records := 1,
          lookup_dict_size := 1, duplicates_removed := 0,
          mapping_results := [(.str "NOT_FOUND", 1)], total_processed := 1 }) ∧
    Cell.str "NOT_FOUND" ≠ Cell.str "MISSING_KEY" ∧
    process_updates c2Master c2Ann "L" "K" =
      .ok ({ cols := ["K", "L"], rows := [(0, [.str "A", .null]), (1, [.str "", .str ""])] },
        { updated_count := 0, inserted_count := 1, duplicates_count := 0,
          skipped_count := 0, duplicates := [] }) :=
  ⟨rfl, by decide, rfl⟩

/-- C2 (amended): a null target key is classified MISSING_KEY, and rows with
status MISSING_KEY are inert under apply: removing them changes neither the
resulting master nor any count or report of process_updates. -/
theorem c2_missing_key_rows_inert :
    (∀ d : List (Cell × Cell), get_status d .null = .str "MISSING_KEY") ∧
    (∀ (master target : Table) (lookup_column key_column : String),
       process_updates master (dropMissingKey target) lookup_column key_column =
         process_updates master target lookup_column key_column) := by
  constructor
  · intro d; rfl
  · intro master target l k
    unfold process_updates
    rw [show (dropMissingKey target).cols = target.cols from rfl,
        statusGroup_dropMissingKey target "X" (by decide),
        statusGroup_dropMissingKey target "D" (by decide),
        statusGroup_dropMissingKey target "0" (by decide),
        statusGroup_dropMissingKey target "NOT_FOUND" (by decide)]

/-- C4: immediately after a successful process_preexisting_items run the
backup slot holds exactly the pre-change master copy, whatever it held
before; rollback returns precisely that copy and clears the slot; and a
second rollback without a new snapshot fails with the not-found error,
touching no state. -/
theorem c4_rollback_exactness (s : AppState) (col : String) (s1 : AppState) (cnt : Nat)
    (h : process_preexisting_items s col = .ok (s1, cnt)) :
    ∃ meta, s1.backup = some (preexistingMasterCopy s.master, meta) ∧
      rollback_preexisting_changes s1 =
        .ok ({ s1 with master := preexistingMasterCopy s.master, backup := none },
             preexistingMasterCopy s.master) ∧
      rollback_preexisting_changes
          { s1 with master := preexistingMasterCopy s.master, backup := none } =
        .error "No backup available for rollback" := by
  unfold process_preexisting_items at h
  split at h
  · exact absurd h (by simp)
  · split at h
    · exact absurd h (by simp)
    · split at h
      · exact absurd h (by simp)
      · simp only [Except.ok.injEq, Prod.mk.injEq] at h
        obtain ⟨h1, h2⟩ := h
        subst h1
        refine ⟨_, rfl, rfl, rfl⟩

/-- C4 witness: the rollback round trip at a concrete two-row master. -/
theorem c4_rollback_witness :
    ∃ meta, c4After.backup = some (preexistingMasterCopy c4State.master, meta) ∧
      rollback_preexisting_changes c4After =
        .ok ({ c4After with master := preexistingMasterCopy c4State.master, backup := none },
             preexistingMasterCopy c4State.master) ∧
      rollback_preexisting_changes
          { c4After with master := preexistingMasterCopy c4State.master, backup := none } =
        .error "No backup available for rollback" :=
  c4_rollback_exactness c4State "ST" c4After 1 (by rfl)

/-- C10: the code contradicts the always-append reading: on a master whose
row labels are the non-contiguous 0 and 2, inserting one NOT_FOUND record
overwrites the existing row labelled 2 (key B is lost), the final row count
stays 2 while inserted_count is 1, so the claimed length identity fails. -/
theorem c10_insert_overwrites_row :
    process_updates c10Master c10Target "SOMECOL" "YAZAKI PN" =
      .ok ({ cols := ["YAZAKI PN"], rows := [(0, [.str "A"]), (2, [.str "C"])] },
           { updated_count := 0, inserted_count := 1, duplicates_count := 0,
             skipped_count := 0, duplicates := [] }) ∧
    (2 : Nat) ≠ c10Master.rows.length + 1 :=
  ⟨rfl, by decide⟩

/-- C9 counterexample: re-running classify on an already-annotated Target
raises the ValueError instead of replacing the column; and the column is
inserted at fixed position 1, which is not immediately after the key column
when the key column is not at position 0. -/
theorem c9_rerun_fails_cex :
    add_activation_status c9Master c9Ann "K" "L" =
      .error "ValueError: cannot insert ACTIVATION_STATUS, already exists" ∧
    (match add_activation_status c9Master c9KeyNotFirst "K" "L" with
     | .ok (df, _) => df.cols
     | .error _ => []) = ["B", "ACTIVATION_STATUS", "K"] ∧
    ["B", "ACTIVATION_STATUS", "K"].indexOf "ACTIVATION_STATUS" ≠
      ["B", "ACTIVATION_STATUS", "K"].indexOf "K" + 1 :=
  ⟨rfl, rfl, by decide⟩

/-- C9 (amended): classify inserts ACTIVATION_STATUS at fixed position 1 on
a copy of the Target, which lies immediately after the key column exactly
when the key column is at position 0; and re-running classify on an
already-annotated Target fails with the pandas insert ValueError rather
than replacing or duplicating the column. -/
theorem c9_status_insert_position (master target : Table) (key_col lookup_col : String)
    (hkm : key_col ∈ master.cols) (hlm : lookup_col ∈ master.cols)
    (hkt : key_col ∈ target.cols) :
    ("ACTIVATION_STATUS" ∈ target.cols →
       add_activation_status master target key_col lookup_col =
         .error "ValueError: cannot insert ACTIVATION_STATUS, already exists") ∧
    ("ACTIVATION_STATUS" ∉ target.cols →
       ∃ df stats, add_activation_status master target key_col lookup_col = .ok (df, stats) ∧
         df.cols = target.cols.insertIdx 1 "ACTIVATION_STATUS" ∧
         df.rows.length = target.rows.length ∧
         (∀ rest, target.cols = key_col :: rest →
            df.cols = key_col :: "ACTIVATION_STATUS" :: rest)) := by
  constructor
  · intro hmem
    unfold add_activation_status
    rw [if_neg (by simp [hkm]), if_neg (by simp [hlm]), if_neg (by simp [hkt]), if_pos hmem]
  · intro hmem
    unfold add_activation_status
    rw [if_neg (by simp [hkm]), if_neg (by simp [hlm]), if_neg (by simp [hkt]),
        if_neg (by simp [hmem])]
    refine ⟨_, _, rfl, rfl, by simp, ?_⟩
    intro rest hcols
    rw [hcols]
    rfl

/-- C9 witness: the amended statement applied at a concrete one-column target. -/
theorem c9_status_insert_witness :
    ∃ df stats, add_activation_status c9Master c9Fresh "K" "L" = .ok (df, stats) ∧
      df.cols = c9Fresh.cols.insertIdx 1 "ACTIVATION_STATUS" ∧
      df.rows.length = c9Fresh.rows.length ∧
      (∀ rest, c9Fresh.cols = "K" :: rest →
         df.cols = "K" :: "ACTIVATION_STATUS" :: rest) :=
  (c9_status_insert_position c9Master c9Fresh "K" "L" (by decide) (by decide) (by decide)).2
    (by decide)

/-- Inserting a key foreign to a dict appends the entry. -/
theorem dictInsert_of_not_mem (d : List (Cell × Cell)) (k v : Cell)
    (h : ∀ p ∈ d, p.1 ≠ k) : dictInsert d k v = d ++ [(k, v)] := by
  unfold dictInsert
  rw [if_neg]
  simp only [List.any_eq_true, not_exists, not_and, beq_iff_eq]
  intro p hp
  exact h p hp

/-- Folding dict inserts over pairwise-fresh keys appends them all. -/
theorem toDict_foldl_fresh (ps : List (Cell × Cell)) :
    ∀ d : List (Cell × Cell), (∀ p ∈ ps, ∀ q ∈ d, p.1 ≠ q.1) → (ps.map (·.1)).Nodup →
      ps.foldl (fun d p => dictInsert d p.1 p.2) d = d ++ ps := by
  induction ps with
  | nil => intro d _ _; simp
  | cons p ps ih =>
    intro d hfresh hnd
    simp only [List.foldl_cons]
    have hstep : dictInsert d p.1 p.2 = d ++ [(p.1, p.2)] := by
      apply dictInsert_of_not_mem
      intro q hq
      exact (hfresh p (List.mem_cons_self _ _) q hq).symm
    rw [hstep]
    have hnd2 : (ps.map (·.1)).Nodup := (List.nodup_cons.mp hnd).2
    have hnotin : p.1 ∉ ps.map (·.1) := (List.nodup_cons.mp hnd).1
    rw [ih (d ++ [(p.1, p.2)]) ?_ hnd2]
    · simp
    · intro r hr q hq
      rcases List.mem_append.mp hq with hq | hq
      · exact hfresh r (List.mem_cons_of_mem _ hr) q hq
      · simp only [List.mem_singleton] at hq
        subst hq
        intro hc
        exact hnotin (hc ▸ List.mem_map_of_mem (·.1) hr)

/-- A key-value list with pairwise distinct keys is its own dict. -/
theorem toDict_of_nodup_keys (ps : List (Cell × Cell)) (h : (ps.map (·.1)).Nodup) :
    toDict ps = ps := by
  have := toDict_foldl_fresh ps [] (by simp) h
  simpa [toDict] using this

/-- Deduplication by the key at position j yields rows with pairwise
distinct key values, none of them in the seen accumulator. -/
theorem dedupByAux_keys (j : Nat) (rows : List (Nat × List Cell)) :
    ∀ seen : List Cell,
      ((dedupByAux j rows seen).map (fun lr => cellAt lr.2 j)).Nodup ∧
      (∀ lr ∈ dedupByAux j rows seen, cellAt lr.2 j ∉ seen) := by
  induction rows with
  | nil => intro seen; simp [dedupByAux]
  | cons r rows ih =>
    intro seen
    unfold dedupByAux
    by_cases hmem : cellAt r.2 j ∈ seen
    · rw [if_pos hmem]; exact ih seen
    · rw [if_neg hmem]
      obtain ⟨ihnd, ihseen⟩ := ih (cellAt r.2 j :: seen)
      refine ⟨?_, ?_⟩
      · simp only [List.map_cons, List.nodup_cons]
        refine ⟨?_, ihnd⟩
        intro hc
        obtain ⟨lr, hlr, heq⟩ := List.mem_map.mp hc
        exact ihseen lr hlr (heq ▸ List.mem_cons_self _ _)
      · intro lr hlr
        rcases List.mem_cons.mp hlr with h1 | h1
        · subst h1; exact hmem
        · intro hc
          exact ihseen lr h1 (List.mem_cons_of_mem _ hc)

/-- Deduplication never lengthens the row list. -/
theorem dedupByAux_length_le (j : Nat) (rows : List (Nat × List Cell)) :
    ∀ seen, (dedupByAux j rows seen).length ≤ rows.length := by
  induction rows with
  | nil => intro seen; simp [dedupByAux]
  | cons r rows ih =>
    intro seen
    unfold dedupByAux
    by_cases hmem : cellAt r.2 j ∈ seen
    · rw [if_pos hmem]; exact Nat.le_succ_of_le (ih seen)
    · rw [if_neg hmem]; simpa using ih (cellAt r.2 j :: seen)

/-- The classifier index has pairwise distinct keys and one entry per
deduplicated master row. -/
theorem lookupIndex_nodup_len (master : Table) (key_col lookup_col : String) :
    ((lookupIndex master key_col lookup_col).map (·.1)).Nodup ∧
    (lookupIndex master key_col lookup_col).length =
      (dedupBy (colIdx master key_col) master.rows).length := by
  set j := colIdx master key_col
  have hkeys := (dedupByAux_keys j master.rows []).1
  have hkeys2 :
      (((dedupBy j master.rows).map
          (fun lr => (cellAt lr.2 j, cellAt lr.2 (colIdx master lookup_col)))).map (·.1)).Nodup := by
    rw [List.map_map]
    exact hkeys
  unfold lookupIndex
  rw [toDict_of_nodup_keys _ hkeys2]
  exact ⟨hkeys2, by simp⟩

/-- C8: the key-to-value index classify builds from the deduplicated Master
has no duplicate keys, and the master row count minus the reported
duplicates_removed equals the number of index entries (which is also the
reported lookup_dict_size). -/
theorem c8_key_uniqueness (master target : Table) (key_col lookup_col : String)
    (df : Table) (stats : LookupStats)
    (h : add_activation_status master target key_col lookup_col = .ok (df, stats)) :
    ((lookupIndex master key_col lookup_col).map (·.1)).Nodup ∧
    master.rows.length - stats.duplicates_removed =
      (lookupIndex master key_col lookup_col).length ∧
    stats.lookup_dict_size = (lookupIndex master key_col lookup_col).length := by
  obtain ⟨hnd, hlen⟩ := lookupIndex_nodup_len master key_col lookup_col
  unfold add_activation_status at h
  split at h
  · exact absurd h (by simp)
  · split at h
    · exact absurd h (by simp)
    · split at h
      · exact absurd h (by simp)
      · split at h
        · exact absurd h (by simp)
        · simp only [Except.ok.injEq, Prod.mk.injEq] at h
          obtain ⟨h1, h2⟩ := h
          subst h2
          refine ⟨hnd, ?_, ?_⟩
          · simp only [hlen]
            have hle := dedupByAux_length_le (colIdx master key_col) master.rows []
            show master.rows.length -
                (master.rows.length - (dedupBy (colIdx master key_col) master.rows).length) = _
            unfold dedupBy at *
            omega
          · rfl

/-- C8 witness: the accounting at a master holding a duplicated key. -/
theorem c8_key_uniqueness_witness :
    ((lookupIndex c8Master "K" "L").map (·.1)).Nodup ∧
    c8Master.rows.length - c8Stats.duplicates_removed = (lookupIndex c8Master "K" "L").length ∧
    c8Stats.lookup_dict_size = (lookupIndex c8Master "K" "L").length :=
  c8_key_uniqueness c8Master c8Target "K" "L" c8Df c8Stats (by rfl)
/-- C3 counterexample: get_status copies the looked-up master value verbatim,
so a master lookup value FOO becomes the activation status FOO, outside the
claimed five-value set. -/
theorem c3_offlist_status_cex :
    (match add_activation_status c3Master c3Target "K" "L" with
     | .ok (df, _) => df.rows.map (fun lr => cellAt lr.2 1)
     | .error _ => []) = [.str "FOO"] ∧
    Cell.str "FOO" ∉
      ([.str "X", .str "D", .str "0", .str "NOT_FOUND", .str "MISSING_KEY"] : List Cell) :=
  ⟨rfl, by decide⟩

/-- The cell at position 1 after an insert at position 1 is the inserted value. -/
theorem cellAt_insertIdx_one (r : List Cell) (s : Cell) (h : 1 ≤ r.length) :
    cellAt (r.insertIdx 1 s) 1 = s := by
  cases r with
  | nil => simp at h
  | cons c cr => rfl

/-- C3 (amended): every Target row receives exactly one status: MISSING_KEY,
NOT_FOUND, the string 0, or the non-null looked-up Master value copied
verbatim (of which X and D are the expected cases); the single status column
is inserted exactly once, and the per-status counts sum to the number of
target rows, so the status buckets partition the Target. -/
theorem c3_status_partition (master target : Table) (key_col lookup_col : String)
    (df : Table) (stats : LookupStats)
    (hwf : ∀ lr ∈ target.rows, lr.2.length = target.cols.length)
    (h : add_activation_status master target key_col lookup_col = .ok (df, stats)) :
    df.cols.count "ACTIVATION_STATUS" = 1 ∧
    df.rows.length = target.rows.length ∧
    (stats.mapping_results.map (·.2)).sum = target.rows.length ∧
    (∀ lr ∈ df.rows, cellAt lr.2 1 = .str "MISSING_KEY" ∨ cellAt lr.2 1 = .str "NOT_FOUND" ∨
       cellAt lr.2 1 = .str "0" ∨
       ∃ p ∈ lookupIndex master key_col lookup_col, pd_isna p.2 = false ∧ cellAt lr.2 1 = p.2) := by
  unfold add_activation_status at h
  split at h
  · exact absurd h (by simp)
  · split at h
    · exact absurd h (by simp)
    · split at h
      · exact absurd h (by simp)
      · split at h
        · exact absurd h (by simp)
        · rename_i hkm hlm hkt hstat
          rw [not_not] at hkt
          simp only [Except.ok.injEq, Prod.mk.injEq] at h
          obtain ⟨h1, h2⟩ := h
          subst h1
          subst h2
          obtain ⟨a, rest, hc⟩ : ∃ a rest, target.cols = a :: rest := by
            cases hcols : target.cols with
            | nil => rw [hcols] at hkt; exact absurd hkt (by simp)
            | cons a rest => exact ⟨a, rest, rfl⟩
          refine ⟨?_, by simp, ?_, ?_⟩
          · show (target.cols.insertIdx 1 "ACTIVATION_STATUS").count "ACTIVATION_STATUS" = 1
            rw [hc] at hstat ⊢
            have hne : "ACTIVATION_STATUS" ≠ a := by
              intro hh; exact hstat (hh ▸ List.mem_cons_self _ _)
            have hnr : "ACTIVATION_STATUS" ∉ rest := fun hh => hstat (List.mem_cons_of_mem _ hh)
            show (a :: "ACTIVATION_STATUS" :: rest).count "ACTIVATION_STATUS" = 1
            simp [List.count_cons, hne, List.count_eq_zero.mpr hnr]
          · set L := target.rows.map (fun lr =>
              get_status (lookupIndex master key_col lookup_col)
                (cellAt lr.2 (colIdx target key_col))) with hL
            show ((valueCounts L).map (·.2)).sum = _
            have hv : (valueCounts L).map (·.2) = L.dedup.map (fun v => L.count v) := by
              unfold valueCounts
              rw [List.map_map]
              rfl
            rw [hv, List.sum_map_count_dedup_eq_length]
            simp [hL]
          · intro lr hlr
            simp only [List.mem_map] at hlr
            obtain ⟨lr0, hlr0, hlr1⟩ := hlr
            subst hlr1
            have hone : 1 ≤ lr0.2.length := by rw [hwf lr0 hlr0, hc]; simp
            set S := get_status (lookupIndex master key_col lookup_col)
              (cellAt lr0.2 (colIdx target key_col)) with hS
            show cellAt (lr0.2.insertIdx 1 S) 1 = .str "MISSING_KEY" ∨
                 cellAt (lr0.2.insertIdx 1 S) 1 = .str "NOT_FOUND" ∨
                 cellAt (lr0.2.insertIdx 1 S) 1 = .str "0" ∨
                 ∃ p ∈ lookupIndex master key_col lookup_col,
                   pd_isna p.2 = false ∧ cellAt (lr0.2.insertIdx 1 S) 1 = p.2
            rw [cellAt_insertIdx_one lr0.2 S hone]
            rw [hS]
            set d := lookupIndex master key_col lookup_col
            set key := cellAt lr0.2 (colIdx target key_col)
            unfold get_status
            by_cases hna : pd_isna key = true
            · rw [if_pos hna]; left; rfl
            · rw [if_neg hna]
              cases hfind : dictFind d key with
              | none => right; left; rfl
              | some val =>
                by_cases hvna : pd_isna val = true
                · right; right; left
                  simp [hvna]
                · right; right; right
                  unfold dictFind at hfind
                  simp only [Option.map_eq_some'] at hfind
                  obtain ⟨q, hq1, hq2⟩ := hfind
                  refine ⟨q, List.mem_of_find?_eq_some hq1, ?_, ?_⟩
                  · rw [hq2]; simpa using hvna
                  · simp [hvna, hq2]

/-- C3 witness: the partition facts at a concrete master and target. -/
theorem c3_status_partition_witness :
    c3Df.cols.count "ACTIVATION_STATUS" = 1 ∧
    c3Df.rows.length = c3Target.rows.length ∧
    (c3Stats.mapping_results.map (·.2)).sum = c3Target.rows.length ∧
    (∀ lr ∈ c3Df.rows, cellAt lr.2 1 = .str "MISSING_KEY" ∨ cellAt lr.2 1 = .str "NOT_FOUND" ∨
       cellAt lr.2 1 = .str "0" ∨
       ∃ p ∈ lookupIndex c3Master "K" "L", pd_isna p.2 = false ∧ cellAt lr.2 1 = p.2) :=
  c3_status_partition c3Master c3Target "K" "L" c3Df c3Stats (by decide) (by rfl)

/-- C6: every row inserted by the NOT_FOUND path, and by the zero-status
path when the key is absent from the master, is the prepare_new_record row:
it has exactly the master column set, copies verbatim every column shared
with the source record except ACTIVATION_STATUS, and defaults every other
master column to the empty string. -/
theorem c6_new_record_construction (master : Table) (tcols : List String)
    (r : Nat × List Cell) (key_column : String) (hk : key_column ∈ tcols) :
    insert_new_records master [r] tcols key_column =
      .ok (locAppend master (prepare_new_record tcols r.2 master), 1) ∧
    (prepare_new_record tcols r.2 master).length = master.cols.length ∧
    (∀ c ∈ master.cols,
       cellAt (prepare_new_record tcols r.2 master) (master.cols.indexOf c) =
         if c ∈ tcols ∧ c ≠ "ACTIVATION_STATUS" then cellAt r.2 (tcols.indexOf c)
         else .str "") ∧
    (key_column ∈ master.cols →
       master.rows.filter (fun lr => pdEq (cellAt lr.2 (colIdx master key_column))
           (cellAt r.2 (tcols.indexOf key_column))) = [] →
       handle_zero_status master [r] tcols key_column =
         .ok (locAppend master (prepare_new_record tcols r.2 master), [], 1)) := by
  refine ⟨?_, by simp [prepare_new_record], ?_, ?_⟩
  · simp [insert_new_records, hk]
  · intro c hc
    have hj : master.cols.indexOf c < master.cols.length := List.indexOf_lt_length.mpr hc
    have hcc : master.cols[master.cols.indexOf c] = c := by
      have := List.indexOf_get (a := c) (l := master.cols) hj
      simpa [List.get_eq_getElem] using this
    unfold prepare_new_record cellAt
    rw [List.getD_eq_getElem _ _ (by simpa using hj), List.getElem_map, hcc]
  · intro hkm hfil
    unfold handle_zero_status
    rw [if_neg (by simp [hk]), if_neg (by simp [hkm])]
    simp only [hfil]
    simp [handle_zero_status]

/-- C6 witness: the construction at a concrete master and record, showing
the shared column copied, the master-only column defaulted to the empty
string, and ACTIVATION_STATUS never copied. -/
theorem c6_new_record_witness :
    insert_new_records c6Master [c6Rec] c6Tcols "YAZAKI PN" =
      .ok (locAppend c6Master (prepare_new_record c6Tcols c6Rec.2 c6Master), 1) ∧
    cellAt (prepare_new_record c6Tcols c6Rec.2 c6Master)
        (c6Master.cols.indexOf "YAZAKI PN") = cellAt c6Rec.2 (c6Tcols.indexOf "YAZAKI PN") ∧
    cellAt (prepare_new_record c6Tcols c6Rec.2 c6Master)
        (c6Master.cols.indexOf "DESC") = .str "" ∧
    cellAt (prepare_new_record c6Tcols c6Rec.2 c6Master)
        (c6Master.cols.indexOf "ACTIVATION_STATUS") = .str "" := by
  have h := c6_new_record_construction c6Master c6Tcols c6Rec "YAZAKI PN" (by decide)
  refine ⟨h.1, ?_, ?_, ?_⟩
  · have := h.2.2.1 "YAZAKI PN" (by decide)
    simpa using this
  · have := h.2.2.1 "DESC" (by decide)
    simpa using this
  · have := h.2.2.1 "ACTIVATION_STATUS" (by decide)
    simpa using this

/-- The head of a filtered list is the first satisfying element. -/
theorem head?_filter_eq_find? {α : Type} (p : α → Bool) (l : List α) :
    (l.filter p).head? = l.find? p := by
  induction l with
  | nil => rfl
  | cons a l ih =>
    simp only [List.filter_cons, List.find?_cons]
    by_cases h : p a
    · simp [h]
    · simp only [Bool.eq_false_iff.mpr h]
      simpa using ih

/-- Positional form: find? returns the element at the first satisfying position. -/
theorem find?_eq_get_of_first {α : Type} (p : α → Bool) (l : List α) :
    ∀ (i : Nat) (hi : i < l.length), p (l.get ⟨i, hi⟩) = true →
      (∀ i2 (hi2 : i2 < l.length), i2 < i → p (l.get ⟨i2, hi2⟩) = false) →
      l.find? p = some (l.get ⟨i, hi⟩) := by
  induction l with
  | nil => intro i hi; simp at hi
  | cons a l ih =>
    intro i hi hp hfirst
    cases i with
    | zero =>
      rw [List.find?_cons]
      simp only [List.get] at hp
      simp [hp]
    | succ i =>
      have ha : p a = false := hfirst 0 (by simp) (Nat.succ_pos i)
      rw [List.find?_cons]
      simp only [ha]
      exact ih i (by simpa using hi) (by simpa using hp)
        (fun i2 hi2 hlt => hfirst (i2 + 1) (by simpa using hi2) (by omega))

/-- Updating the row carrying a fixed label equals a positional set when the
labels are pairwise distinct. -/
theorem map_update_by_label (rows : List (Nat × List Cell))
    (hnd : (rows.map (·.1)).Nodup) (i : Nat) (hi : i < rows.length)
    (f : List Cell → List Cell) :
    rows.map (fun lr => if lr.1 = rows[i].1 then (lr.1, f lr.2) else lr) =
      rows.set i (rows[i].1, f rows[i].2) := by
  apply List.ext_getElem
  · simp
  · intro j hj1 hj2
    have hj : j < rows.length := by simpa using hj1
    rw [List.getElem_map, List.getElem_set]
    by_cases hij : j = i
    · subst hij; simp
    · rw [if_neg (show ¬ i = j from fun hc => hij hc.symm)]
      have hne : rows[j].1 ≠ rows[i].1 := by
        intro hc
        apply hij
        have h2 : (rows.map (·.1)).get ⟨j, by simpa using hj⟩ =
            (rows.map (·.1)).get ⟨i, by simpa using hi⟩ := by
          simpa [List.get_eq_getElem] using hc
        have h3 := (List.Nodup.get_inj_iff hnd).mp h2
        exact congrArg Fin.val h3
      rw [if_neg hne]

/-- C5: for a D record, when no master row key pandas-equals the record key
nothing happens (master unchanged, count 0); when a match exists, exactly
the first matching master row has its lookup-column cell set to the D
marker, all other rows unchanged, and the updated count is 1. -/
theorem c5_d_disposition (master : Table) (tcols : List String) (r : Nat × List Cell)
    (lookup_column key_column : String)
    (hk : key_column ∈ tcols) (hkm : key_column ∈ master.cols)
    (hlm : lookup_column ∈ master.cols)
    (hnd : (master.rows.map (·.1)).Nodup) :
    ((∀ lr ∈ master.rows,
        pdEq (cellAt lr.2 (colIdx master key_column))
          (cellAt r.2 (tcols.indexOf key_column)) = false) →
      update_existing_records master [r] tcols lookup_column key_column = .ok (master, 0)) ∧
    (∀ i (hi : i < master.rows.length),
       pdEq (cellAt (master.rows[i]).2 (colIdx master key_column))
         (cellAt r.2 (tcols.indexOf key_column)) = true →
       (∀ i2 (hi2 : i2 < master.rows.length), i2 < i →
          pdEq (cellAt (master.rows[i2]).2 (colIdx master key_column))
            (cellAt r.2 (tcols.indexOf key_column)) = false) →
       update_existing_records master [r] tcols lookup_column key_column =
         .ok (Table.mk master.cols
                (master.rows.set i
                  ((master.rows[i]).1,
                   (master.rows[i]).2.set (colIdx master lookup_column) (.str "D"))),
              1)) := by
  constructor
  · intro hnone
    unfold update_existing_records
    rw [if_neg (by simp [hk]), if_neg (by simp [hkm])]
    have hfil : master.rows.filter (fun lr =>
        pdEq (cellAt lr.2 (colIdx master key_column))
          (cellAt r.2 (tcols.indexOf key_column))) = [] := by
      rw [List.filter_eq_nil_iff]
      intro a ha
      simp [hnone a ha]
    simp only [hfil]
    simp [update_existing_records]
  · intro i hi hp hfirst
    unfold update_existing_records
    rw [if_neg (by simp [hk]), if_neg (by simp [hkm])]
    have hhead : (master.rows.filter (fun lr =>
        pdEq (cellAt lr.2 (colIdx master key_column))
          (cellAt r.2 (tcols.indexOf key_column)))).head? = some (master.rows[i]) := by
      rw [head?_filter_eq_find?]
      have := find?_eq_get_of_first (fun lr =>
          pdEq (cellAt lr.2 (colIdx master key_column))
            (cellAt r.2 (tcols.indexOf key_column))) master.rows i hi
        (by simpa [List.get_eq_getElem] using hp)
        (by intro i2 hi2 hlt; simpa [List.get_eq_getElem] using hfirst i2 hi2 hlt)
      simpa [List.get_eq_getElem] using this
    simp only [hhead]
    have hloc : locSet master (master.rows[i]).1 lookup_column (.str "D") =
        Table.mk master.cols
          (master.rows.set i
            ((master.rows[i]).1,
             (master.rows[i]).2.set (colIdx master lookup_column) (.str "D"))) := by
      unfold locSet
      rw [if_pos hlm]
      have := map_update_by_label master.rows hnd i hi
        (fun cells => cells.set (colIdx master lookup_column) (.str "D"))
      simp only [this]
    simp only [hloc]
    simp [update_existing_records]

/-- C5 witness: on a master holding the key twice, only the first matching
row is marked. -/
theorem c5_d_disposition_witness :
    update_existing_records c5Master [c5Rec] c5Tcols "ST" "YAZAKI PN" =
      .ok (Table.mk c5Master.cols
             (c5Master.rows.set 0
               ((c5Master.rows.get ⟨0, by decide⟩).1,
                (c5Master.rows.get ⟨0, by decide⟩).2.set (colIdx c5Master "ST") (.str "D"))),
           1) :=
  (c5_d_disposition c5Master c5Tcols c5Rec "ST" "YAZAKI PN"
      (by decide) (by decide) (by decide) (by decide)).2 0 (by decide) (by decide)
    (by intro i2 hi2 h; omega)

/-- Char equality is decided by the code point. -/
theorem char_eq_of_toNat_eq {a b : Char} (h : a.toNat = b.toNat) : a = b :=
  Char.ext (UInt32.ext h)

/-- toUpper is the identity outside the lowercase ASCII range. -/
theorem toUpper_eq_self_of_not_lower {c : Char} (h : ¬(97 ≤ c.toNat ∧ c.toNat ≤ 122)) :
    c.toUpper = c := by
  unfold Char.toUpper
  rw [if_neg (by omega)]

/-- Code point of the upper-cased lowercase letter. -/
theorem toNat_toUpper_of_lower {c : Char} (h1 : 97 ≤ c.toNat) (h2 : c.toNat ≤ 122) :
    c.toUpper.toNat = c.toNat - 32 := by
  unfold Char.toUpper
  rw [if_pos (by omega)]
  show (Char.ofNat (c.toNat - 32)).toNat = c.toNat - 32
  unfold Char.ofNat
  rw [dif_pos (Or.inl (by omega : c.toNat - 32 < 55296))]
  unfold Char.ofNatAux Char.toNat
  simp [UInt32.toNat, BitVec.toNat_ofNatLt]

/-- Upper-casing is idempotent. -/
theorem toUpper_toUpper (c : Char) : c.toUpper.toUpper = c.toUpper := by
  by_cases h : 97 ≤ c.toNat ∧ c.toNat ≤ 122
  · have h3 := toNat_toUpper_of_lower h.1 h.2
    apply toUpper_eq_self_of_not_lower
    omega
  · have e := toUpper_eq_self_of_not_lower h
    rw [e]
    exact e

/-- Characters kept by the key regex are fixed by toUpper. -/
theorem toUpper_eq_self_of_keep {c : Char} (h : keepAlnumUpper c = true) : c.toUpper = c := by
  apply toUpper_eq_self_of_not_lower
  unfold keepAlnumUpper at h
  simp only [Bool.or_eq_true, Bool.and_eq_true, decide_eq_true_eq] at h
  rcases h with ⟨_, h2⟩ | ⟨_, h2⟩ <;>
    · have := Char.le_def.mp h2
      have : c.toNat ≤ 90 ∨ c.toNat ≤ 57 := by
        first
        | exact Or.inl (by exact this)
        | exact Or.inr (by exact this)
      omega

/-- Characterization of the modelled whitespace by code point. -/
theorem isWs_iff (c : Char) : isWs c = true ↔
    c.toNat = 32 ∨ c.toNat = 9 ∨ c.toNat = 10 ∨ c.toNat = 13 := by
  unfold isWs
  simp only [Bool.or_eq_true, beq_iff_eq]
  constructor
  · rintro (((rfl | rfl) | rfl) | rfl) <;> simp [Char.toNat]
  · rintro (h | h | h | h)
    · exact Or.inl (Or.inl (Or.inl (char_eq_of_toNat_eq h)))
    · exact Or.inl (Or.inl (Or.inr (char_eq_of_toNat_eq h)))
    · exact Or.inl (Or.inr (char_eq_of_toNat_eq h))
    · exact Or.inr (char_eq_of_toNat_eq h)

/-- Upper-casing does not change whitespace-ness. -/
theorem isWs_toUpper (c : Char) : isWs c.toUpper = isWs c := by
  by_cases h : 97 ≤ c.toNat ∧ c.toNat ≤ 122
  · have h3 := toNat_toUpper_of_lower h.1 h.2
    have e1 : isWs c.toUpper = false := by
      rw [Bool.eq_false_iff]
      intro hc
      have := (isWs_iff _).mp hc
      omega
    have e2 : isWs c = false := by
      rw [Bool.eq_false_iff]
      intro hc
      have := (isWs_iff _).mp hc
      omega
    rw [e1, e2]
  · rw [toUpper_eq_self_of_not_lower h]

/-- dropWhile of a list whose head fails the predicate is the identity. -/
theorem dropWhile_eq_self_of_head {α : Type} (p : α → Bool) (l : List α)
    (h : ∀ c, l.head? = some c → p c = false) : l.dropWhile p = l := by
  cases l with
  | nil => rfl
  | cons a l =>
    rw [List.dropWhile_cons, h a rfl]
    simp

/-- The head of a dropWhile result fails the predicate. -/
theorem head?_dropWhile_not {α : Type} (p : α → Bool) (l : List α) :
    ∀ {a : α}, (l.dropWhile p).head? = some a → p a = false := by
  induction l with
  | nil => intro a h; simp [List.dropWhile] at h
  | cons b l ih =>
    intro a h
    by_cases hb : p b
    · rw [List.dropWhile_cons, if_pos hb] at h
      exact ih h
    · rw [List.dropWhile_cons, if_neg hb] at h
      simp only [List.head?_cons, Option.some.injEq] at h
      subst h
      exact Bool.eq_false_iff.mpr hb

/-- dropWhile keeps the last element when the result is nonempty. -/
theorem getLast?_dropWhile {α : Type} (p : α → Bool) (l : List α)
    (h : l.dropWhile p ≠ []) : (l.dropWhile p).getLast? = l.getLast? := by
  induction l with
  | nil => simp [List.dropWhile] at h
  | cons a l ih =>
    by_cases ha : p a
    · rw [List.dropWhile_cons, if_pos ha] at h ⊢
      rw [ih h]
      cases l with
      | nil => simp [List.dropWhile] at h
      | cons b l => rfl
    · rw [List.dropWhile_cons, if_neg ha]

/-- The first character of a trim result is not whitespace. -/
theorem trimChars_head?_not_ws (l : List Char) {c : Char}
    (h : (trimChars l).head? = some c) : isWs c = false := by
  unfold trimChars at h
  rw [List.head?_reverse] at h
  have hne : (l.dropWhile isWs).reverse.dropWhile isWs ≠ [] := by
    intro hc
    rw [hc] at h
    simp at h
  rw [getLast?_dropWhile _ _ hne, List.getLast?_reverse] at h
  exact head?_dropWhile_not _ _ h

/-- The last character of a trim result is not whitespace. -/
theorem trimChars_getLast?_not_ws (l : List Char) {c : Char}
    (h : (trimChars l).getLast? = some c) : isWs c = false := by
  unfold trimChars at h
  rw [List.getLast?_reverse] at h
  exact head?_dropWhile_not _ _ h

/-- Trimming a list with no whitespace at either end is the identity. -/
theorem trimChars_eq_self (l : List Char)
    (h1 : ∀ c, l.head? = some c → isWs c = false)
    (h2 : ∀ c, l.getLast? = some c → isWs c = false) : trimChars l = l := by
  unfold trimChars
  rw [dropWhile_eq_self_of_head _ _ h1]
  rw [dropWhile_eq_self_of_head _ _ (fun c hc => h2 c (by rwa [List.head?_reverse] at hc))]
  exact List.reverse_reverse l

/-- Trimming is idempotent. -/
theorem trimChars_idem (l : List Char) : trimChars (trimChars l) = trimChars l :=
  trimChars_eq_self _ (fun _ h => trimChars_head?_not_ws l h)
    (fun _ h => trimChars_getLast?_not_ws l h)

/-- Trimming only removes characters. -/
theorem mem_of_mem_trimChars {c : Char} {l : List Char} (h : c ∈ trimChars l) : c ∈ l := by
  unfold trimChars at h
  rw [List.mem_reverse] at h
  have h2 := (List.dropWhile_sublist _).subset h
  rw [List.mem_reverse] at h2
  exact (List.dropWhile_sublist _).subset h2

/-- Rebuilding a string from its characters is the identity. -/
theorem string_mk_data (s : String) : String.mk s.data = s := by
  cases s
  rfl

/-- Every character of a cleaned key consists of kept characters. -/
theorem pnClean_chars (v : Cell) {s : String} (h : pnClean v = .str s) :
    ∀ c ∈ s.data, keepAlnumUpper c = true := by
  unfold pnClean stripNonAlnum at h
  simp only [Cell.str.injEq] at h
  subst h
  intro c hc
  exact List.of_mem_filter hc

/-- The key cleaner fixes strings of kept characters. -/
theorem pnClean_fix {s : String} (h : ∀ c ∈ s.data, keepAlnumUpper c = true) :
    pnClean (.str s) = .str s := by
  unfold pnClean toStrOrEmpty
  have h1 : pd_isna (.str s) = false := rfl
  rw [h1]
  show Cell.str (stripNonAlnum (pyUpper s)) = .str s
  have hup : pyUpper s = s := by
    unfold pyUpper
    have : s.data.map Char.toUpper = s.data := by
      rw [List.map_congr_left (fun c hc => toUpper_eq_self_of_keep (h c hc))]
      exact List.map_id _
    rw [this, string_mk_data]
  rw [hup]
  unfold stripNonAlnum
  rw [List.filter_eq_self.mpr h, string_mk_data]

/-- The nan-like replacement fixes strings of kept characters. -/
theorem replNanStr_eq_self_of_keep {s : String} (h : ∀ c ∈ s.data, keepAlnumUpper c = true) :
    replNanStr s = s := by
  unfold replNanStr
  rw [if_neg]
  rintro (rfl | rfl | rfl)
  · exact absurd (h 'n' (by decide)) (by decide)
  · exact absurd (h 'o' (by decide)) (by decide)
  · exact absurd (h 'a' (by decide)) (by decide)

/-- The nan-like replacement is idempotent. -/
theorem replNanStr_idem (s : String) : replNanStr (replNanStr s) = replNanStr s := by
  unfold replNanStr
  split
  · rw [if_neg (by decide)]
  · rfl

/-- The object-column fix is idempotent. -/
theorem fixObjCell_idem (v : Cell) : fixObjCell (fixObjCell v) = fixObjCell v := by
  unfold fixObjCell
  show Cell.str (replNanStr (replNanStr (pyStr v))) = _
  rw [replNanStr_idem]

/-- The numeric-column fix is idempotent. -/
theorem fixNumCell_idem (v : Cell) : fixNumCell (fixNumCell v) = fixNumCell v := by
  cases v <;> rfl

/-- The per-column fix is idempotent. -/
theorem fixColFn_idem (t t2 : Table) (j : Nat) (h : colIsObject t2 j = colIsObject t j)
    (v : Cell) : fixColFn t2 j (fixColFn t j v) = fixColFn t j v := by
  unfold fixColFn
  rw [h]
  by_cases hb : colIsObject t j = true
  · rw [hb]
    simp only [if_pos]
    exact fixObjCell_idem v
  · rw [Bool.eq_false_iff.mpr hb]
    simp only [Bool.false_eq_true, if_neg, ite_false]
    exact fixNumCell_idem v

/-- Reading a position below the bound from a range-map row. -/
theorem cellAt_range_map (f : Nat → Cell) (n j : Nat) (hj : j < n) :
    cellAt ((List.range n).map f) j = f j := by
  unfold cellAt
  rw [List.getD_eq_getElem _ _ (by simpa using hj), List.getElem_map, List.getElem_range]

/-- A cell is a string or is not. -/
def isStrCell : Cell → Bool
  | .str _ => true
  | _ => false

/-- Congruence for List.any under a pointwise equality. -/
theorem list_any_congr {α : Type} {p q : α → Bool} {l : List α}
    (h : ∀ a ∈ l, p a = q a) : l.any p = l.any q := by
  induction l with
  | nil => rfl
  | cons a l ih =>
    simp only [List.any_cons]
    rw [h a (List.mem_cons_self _ _), ih (fun b hb => h b (List.mem_cons_of_mem _ hb))]

/-- The numeric fix does not create strings. -/
theorem isStrCell_fixNumCell (v : Cell) : isStrCell (fixNumCell v) = isStrCell v := by
  cases v <;> rfl

/-- colIsObject restated through isStrCell. -/
theorem colIsObject_eq_any (t : Table) (j : Nat) :
    colIsObject t j = t.rows.any (fun lr => isStrCell (cellAt lr.2 j)) := by
  unfold colIsObject
  apply list_any_congr
  intro lr _
  cases cellAt lr.2 j <;> rfl

/-- fix_arrow_compatibility does not change which columns are object dtype. -/
theorem colIsObject_fix_arrow (t : Table) (j : Nat) (hj : j < t.cols.length) :
    colIsObject (fix_arrow_compatibility t) j = colIsObject t j := by
  by_cases hb : colIsObject t j = true
  · rw [hb, colIsObject_eq_any]
    have hb2 := hb
    rw [colIsObject_eq_any, List.any_eq_true] at hb2
    obtain ⟨lr0, hlr0, hstr⟩ := hb2
    rw [List.any_eq_true]
    refine ⟨(lr0.1, (List.range t.cols.length).map
      (fun j2 => fixColFn t j2 (cellAt lr0.2 j2))), ?_, ?_⟩
    · exact List.mem_map_of_mem _ hlr0
    · show isStrCell (cellAt ((List.range _).map _) j) = true
      rw [cellAt_range_map _ _ _ hj]
      unfold fixColFn
      rw [hb]
      rfl
  · rw [Bool.not_eq_true] at hb
    rw [hb, colIsObject_eq_any, List.any_eq_false]
    have hb2 := hb
    rw [colIsObject_eq_any, List.any_eq_false] at hb2
    intro lr hlr
    obtain ⟨lr0, hlr0, rfl⟩ := List.mem_map.mp hlr
    show ¬ isStrCell (cellAt ((List.range _).map _) j) = true
    rw [cellAt_range_map _ _ _ hj]
    unfold fixColFn
    rw [hb]
    show ¬ isStrCell (fixNumCell (cellAt lr0.2 j)) = true
    rw [isStrCell_fixNumCell]
    exact hb2 lr0 hlr0

/-- fix_arrow_compatibility is idempotent. -/
theorem fix_arrow_idem (t : Table) :
    fix_arrow_compatibility (fix_arrow_compatibility t) = fix_arrow_compatibility t := by
  show Table.mk t.cols ((fix_arrow_compatibility t).rows.map _) = Table.mk t.cols _
  congr 1
  show ((t.rows.map _).map _) = t.rows.map _
  rw [List.map_map]
  apply List.map_congr_left
  intro lr _
  show (lr.1, (List.range t.cols.length).map (fun j => fixColFn (fix_arrow_compatibility t) j
        (cellAt ((List.range t.cols.length).map (fun j2 => fixColFn t j2 (cellAt lr.2 j2))) j))) =
      (lr.1, (List.range t.cols.length).map (fun j => fixColFn t j (cellAt lr.2 j)))
  congr 1
  apply List.map_congr_left
  intro j hj
  rw [List.mem_range] at hj
  rw [cellAt_range_map _ _ _ hj]
  exact fixColFn_idem t (fix_arrow_compatibility t) j (colIsObject_fix_arrow t j hj) _

/-- Setting a position below the bound then reading it back. -/
theorem cellAt_set_lt (r : List Cell) (j : Nat) (x : Cell) (h : j < r.length) :
    cellAt (r.set j x) j = x := by
  unfold cellAt
  rw [List.getD_eq_getElem _ _ (by simpa using h), List.getElem_set]
  simp

/-- Writing back the value already present is the identity. -/
theorem set_cellAt_self (r : List Cell) (j : Nat) (h : j < r.length) :
    r.set j (cellAt r j) = r := by
  unfold cellAt
  rw [List.getD_eq_getElem r Cell.null h]
  apply List.ext_getElem
  · simp
  · intro i h1 h2
    rw [List.getElem_set]
    split
    · subst i; rfl
    · rfl

/-- A column-cell transformation fixing the current value is the identity. -/
theorem mapColAt_fix {j : Nat} {f : Cell → Cell} {r : List Cell}
    (h : f (cellAt r j) = cellAt r j) : mapColAt j f r = r := by
  unfold mapColAt
  rw [h]
  by_cases hj : j < r.length
  · exact set_cellAt_self r j hj
  · exact List.set_eq_of_length_le (by omega)

/-- mapCol is the identity when the transformation fixes every cell. -/
theorem mapCol_eq_self {t : Table} {c : String} {f : Cell → Cell}
    (h : ∀ lr ∈ t.rows, mapColAt (colIdx t c) f lr.2 = lr.2) : mapCol t c f = t := by
  show Table.mk t.cols _ = t
  have hpt : ∀ lr ∈ t.rows, ((lr.1 : Nat), mapColAt (colIdx t c) f lr.2) = lr := by
    intro lr hlr
    rw [h lr hlr]
  rw [List.map_congr_left hpt]
  show Table.mk t.cols (t.rows.map id) = t
  rw [List.map_id]

/-- filterRows is the identity when every row passes. -/
theorem filterRows_eq_self {t : Table} {p : List Cell → Bool}
    (h : ∀ lr ∈ t.rows, p lr.2 = true) : filterRows t p = t := by
  show Table.mk t.cols _ = t
  rw [List.filter_eq_self.mpr h]

/-- Renaming a column to its own name is the identity. -/
theorem renameCol_self (t : Table) (a : String) : renameCol t a a = t := by
  show Table.mk _ t.rows = t
  have hpt : ∀ c ∈ t.cols, (if c = a then a else c) = c := by
    intro c _
    split
    · rename_i hc
      rw [hc]
    · rfl
  rw [List.map_congr_left hpt]
  show Table.mk (t.cols.map id) t.rows = t
  rw [List.map_id]

/-- After renaming the head of the matching-column filter to YAZAKI PN, the
filter still starts with that canonical name. -/
theorem filter_map_rename (l : List String) (old : String) (tl : List String)
    (h : l.filter (fun c => colNameStd c = "YAZAKI_PN") = old :: tl) :
    ∃ tl2, (l.map (fun c => if c = old then "YAZAKI PN" else c)).filter
        (fun c => colNameStd c = "YAZAKI_PN") = "YAZAKI PN" :: tl2 := by
  induction l generalizing tl with
  | nil => simp at h
  | cons a l ih =>
    by_cases ha : colNameStd a = "YAZAKI_PN"
    · rw [List.filter_cons_of_pos (by simpa using ha)] at h
      simp only [List.cons.injEq] at h
      obtain ⟨rfl, rfl⟩ := h
      rw [List.map_cons, if_pos rfl,
          List.filter_cons_of_pos (by simp [show colNameStd "YAZAKI PN" = "YAZAKI_PN" by decide])]
      exact ⟨_, rfl⟩
    · rw [List.filter_cons_of_neg (by simpa using ha)] at h
      have hao : a ≠ old := by
        intro hc
        have hmem : old ∈ l.filter (fun c => colNameStd c = "YAZAKI_PN") := by
          rw [h]; exact List.mem_cons_self _ _
        have := List.of_mem_filter hmem
        rw [← hc] at this
        simp only [decide_eq_true_eq] at this
        exact ha this
      obtain ⟨tl2, htl2⟩ := ih tl h
      rw [List.map_cons, if_neg hao, List.filter_cons_of_neg (by simpa using ha)]
      exact ⟨tl2, htl2⟩

/-- The table component of clean_master_yazaki factors through the two steps. -/
theorem clean_master_fst (df : Table) :
    (clean_master_yazaki df).1 = cmCleanCol (cmRename df) := by
  unfold clean_master_yazaki cmCleanCol cmRename
  cases hf : df.cols.filter (fun c => colNameStd c = "YAZAKI_PN") with
  | nil =>
    simp only
    split <;> rfl
  | cons old tl =>
    simp only
    split <;> rfl

/-- Every key cell of a cleanable master that went through cmCleanCol is a
nonempty string of kept characters. -/
theorem cmCleanCol_cells (u : Table) (hYP : "YAZAKI PN" ∈ u.cols) :
    ∀ lr ∈ (cmCleanCol u).rows, ∃ s : String,
      cellAt lr.2 (colIdx u "YAZAKI PN") = .str s ∧
      (∀ c ∈ s.data, keepAlnumUpper c = true) ∧ 0 < s.length := by
  intro lr hlr
  have hjlt : colIdx u "YAZAKI PN" < u.cols.length := List.indexOf_lt_length.mpr hYP
  unfold cmCleanCol at hlr
  rw [if_pos hYP] at hlr
  obtain ⟨lr0, hlr0, rfl⟩ := List.mem_map.mp hlr
  have hlr0f : lr0 ∈ (mapCol u "YAZAKI PN" pnClean).rows.filter
      (fun lr2 => match cellAt lr2.2 (colIdx u "YAZAKI PN") with
        | .str s => decide (0 < s.length)
        | _ => false) := hlr0
  have hmem1 : lr0 ∈ (mapCol u "YAZAKI PN" pnClean).rows := List.mem_of_mem_filter hlr0f
  have hpred : (match cellAt lr0.2 (colIdx u "YAZAKI PN") with
      | .str s => decide (0 < s.length)
      | _ => false) = true :=
    List.of_mem_filter (p := fun (lr2 : Nat × List Cell) => match cellAt lr2.2 (colIdx u "YAZAKI PN") with
      | .str s => decide (0 < s.length)
      | _ => false) hlr0f
  obtain ⟨r0, hr0, hr0eq⟩ := List.mem_map.mp hmem1
  have hcell0 : ∃ s0 : String,
      cellAt lr0.2 (colIdx u "YAZAKI PN") = .str s0 ∧
      (∀ c ∈ s0.data, keepAlnumUpper c = true) ∧ 0 < s0.length := by
    by_cases hlen : colIdx u "YAZAKI PN" < r0.2.length
    · have : cellAt lr0.2 (colIdx u "YAZAKI PN") =
          pnClean (cellAt r0.2 (colIdx u "YAZAKI PN")) := by
        rw [← hr0eq]
        show cellAt (mapColAt (colIdx u "YAZAKI PN") pnClean r0.2) _ = _
        unfold mapColAt
        exact cellAt_set_lt _ _ _ hlen
      rw [this] at hpred ⊢
      refine ⟨stripNonAlnum (pyUpper (toStrOrEmpty (cellAt r0.2 (colIdx u "YAZAKI PN")))),
        rfl, ?_, ?_⟩
      · exact pnClean_chars _ rfl
      · unfold pnClean at hpred
        simpa using hpred
    · exfalso
      have : cellAt lr0.2 (colIdx u "YAZAKI PN") = .null := by
        rw [← hr0eq]
        show cellAt (mapColAt (colIdx u "YAZAKI PN") pnClean r0.2) _ = _
        unfold mapColAt
        rw [List.set_eq_of_length_le (by omega)]
        unfold cellAt
        exact List.getD_eq_default _ _ (by omega)
      rw [this] at hpred
      simp at hpred
  obtain ⟨s0, hs0, hkeep, hlen0⟩ := hcell0
  have hobj : colIsObject (filterRows (mapCol u "YAZAKI PN" pnClean)
      (fun r => match cellAt r (colIdx u "YAZAKI PN") with
        | .str s => decide (0 < s.length)
        | _ => false)) (colIdx u "YAZAKI PN") = true := by
    rw [colIsObject_eq_any, List.any_eq_true]
    exact ⟨lr0, hlr0, by rw [hs0]; rfl⟩
  refine ⟨s0, ?_, hkeep, hlen0⟩
  have hjlt2 : colIdx u "YAZAKI PN" < (filterRows (mapCol u "YAZAKI PN" pnClean)
      (fun r => match cellAt r (colIdx u "YAZAKI PN") with
        | .str s => decide (0 < s.length)
        | _ => false)).cols.length := hjlt
  show cellAt ((List.range _).map _) _ = _
  rw [cellAt_range_map _ _ _ hjlt2]
  unfold fixColFn
  rw [hobj]
  simp only [if_pos]
  rw [hs0]
  show Cell.str (replNanStr (pyStr (.str s0))) = _
  show Cell.str (replNanStr s0) = _
  rw [replNanStr_eq_self_of_keep hkeep]

/-- cmCleanCol unfolded in the presence of the key column. -/
theorem cmCleanCol_of_mem (x : Table) (h : "YAZAKI PN" ∈ x.cols) :
    cmCleanCol x = fix_arrow_compatibility (filterRows (mapCol x "YAZAKI PN" pnClean)
      (fun r => match cellAt r (colIdx x "YAZAKI PN") with
        | .str s => decide (0 < s.length)
        | _ => false)) := by
  unfold cmCleanCol
  rw [if_pos h]

/-- clean_master_yazaki is idempotent on the returned table. -/
theorem clean_master_idem (t : Table) :
    (clean_master_yazaki (clean_master_yazaki t).1).1 = (clean_master_yazaki t).1 := by
  rw [clean_master_fst, clean_master_fst]
  cases hf : t.cols.filter (fun c => colNameStd c = "YAZAKI_PN") with
  | nil =>
    have h1 : cmRename t = t := by unfold cmRename; rw [hf]
    rw [h1]
    have hnot : "YAZAKI PN" ∉ t.cols := by
      intro hc
      have hm : "YAZAKI PN" ∈ t.cols.filter (fun c => colNameStd c = "YAZAKI_PN") :=
        List.mem_filter.mpr ⟨hc, by decide⟩
      rw [hf] at hm
      simp at hm
    have h2 : cmCleanCol t = fix_arrow_compatibility t := by
      unfold cmCleanCol
      rw [if_neg hnot]
    rw [h2]
    have h3 : cmRename (fix_arrow_compatibility t) = fix_arrow_compatibility t := by
      unfold cmRename
      rw [show (fix_arrow_compatibility t).cols = t.cols from rfl, hf]
    rw [h3]
    have hnot2 : "YAZAKI PN" ∉ (fix_arrow_compatibility t).cols := hnot
    have h4 : cmCleanCol (fix_arrow_compatibility t) =
        fix_arrow_compatibility (fix_arrow_compatibility t) := by
      unfold cmCleanCol
      rw [if_neg hnot2]
    rw [h4, fix_arrow_idem]
  | cons old tl =>
    have h1 : cmRename t = renameCol t old "YAZAKI PN" := by unfold cmRename; rw [hf]
    rw [h1]
    have hold_mem_f : old ∈ t.cols.filter (fun c => colNameStd c = "YAZAKI_PN") := by
      rw [hf]
      exact List.mem_cons_self _ _
    have hYP : "YAZAKI PN" ∈ (renameCol t old "YAZAKI PN").cols := by
      show "YAZAKI PN" ∈ t.cols.map _
      exact List.mem_map.mpr ⟨old, (List.mem_filter.mp hold_mem_f).1, by rw [if_pos rfl]⟩
    obtain ⟨tl2, htl2⟩ := filter_map_rename t.cols old tl hf
    have hvcols : (cmCleanCol (renameCol t old "YAZAKI PN")).cols =
        (renameCol t old "YAZAKI PN").cols := by
      unfold cmCleanCol
      split <;> rfl
    have h5 : cmRename (cmCleanCol (renameCol t old "YAZAKI PN")) =
        cmCleanCol (renameCol t old "YAZAKI PN") := by
      unfold cmRename
      have hsc : (cmCleanCol (renameCol t old "YAZAKI PN")).cols.filter
          (fun c => colNameStd c = "YAZAKI_PN") = "YAZAKI PN" :: tl2 := by
        rw [hvcols]
        exact htl2
      rw [hsc]
      exact renameCol_self _ _
    rw [h5]
    have hYPv : "YAZAKI PN" ∈ (cmCleanCol (renameCol t old "YAZAKI PN")).cols := by
      rw [hvcols]
      exact hYP
    have hcells := cmCleanCol_cells (renameCol t old "YAZAKI PN") hYP
    have hjv : colIdx (cmCleanCol (renameCol t old "YAZAKI PN")) "YAZAKI PN" =
        colIdx (renameCol t old "YAZAKI PN") "YAZAKI PN" := by
      unfold colIdx
      rw [hvcols]
    rw [cmCleanCol_of_mem (cmCleanCol (renameCol t old "YAZAKI PN")) hYPv]
    have hmap : mapCol (cmCleanCol (renameCol t old "YAZAKI PN")) "YAZAKI PN" pnClean =
        cmCleanCol (renameCol t old "YAZAKI PN") := by
      apply mapCol_eq_self
      intro lr hlr
      obtain ⟨s, hs, hkeep, _⟩ := hcells lr hlr
      apply mapColAt_fix
      rw [hjv, hs]
      exact pnClean_fix hkeep
    rw [hmap]
    have hfil : filterRows (cmCleanCol (renameCol t old "YAZAKI PN"))
        (fun r => match cellAt r (colIdx (cmCleanCol (renameCol t old "YAZAKI PN"))
            "YAZAKI PN") with
          | .str s => decide (0 < s.length)
          | _ => false) = cmCleanCol (renameCol t old "YAZAKI PN") := by
      apply filterRows_eq_self
      intro lr hlr
      obtain ⟨s, hs, _, hlen⟩ := hcells lr hlr
      rw [hjv, hs]
      simpa using hlen
    rw [hfil]
    rw [cmCleanCol_of_mem (renameCol t old "YAZAKI PN") hYP, fix_arrow_idem]

/-- The generic cleaner always returns a string cell. -/
theorem isStrCell_genCellClean (v : Cell) : isStrCell (genCellClean v) = true := rfl

/-- cleanObjectCols does not change which columns are object dtype. -/
theorem colIsObject_cleanObjectCols (x : Table) (j : Nat) (hj : j < x.cols.length) :
    colIsObject (cleanObjectCols x) j = colIsObject x j := by
  by_cases hb : colIsObject x j = true
  · rw [hb, colIsObject_eq_any]
    have hb2 := hb
    rw [colIsObject_eq_any, List.any_eq_true] at hb2
    obtain ⟨lr0, hlr0, _⟩ := hb2
    rw [List.any_eq_true]
    refine ⟨(lr0.1, (List.range x.cols.length).map
      (fun j2 => (if colIsObject x j2 then genCellClean else id) (cellAt lr0.2 j2))), ?_, ?_⟩
    · exact List.mem_map_of_mem _ hlr0
    · show isStrCell (cellAt ((List.range _).map _) j) = true
      rw [cellAt_range_map _ _ _ hj, if_pos hb]
      rfl
  · rw [Bool.not_eq_true] at hb
    rw [hb, colIsObject_eq_any, List.any_eq_false]
    have hb2 := hb
    rw [colIsObject_eq_any, List.any_eq_false] at hb2
    intro lr hlr
    obtain ⟨lr0, hlr0, rfl⟩ := List.mem_map.mp hlr
    show ¬ isStrCell (cellAt ((List.range _).map _) j) = true
    rw [cellAt_range_map _ _ _ hj, hb]
    show ¬ isStrCell (id (cellAt lr0.2 j)) = true
    exact hb2 lr0 hlr0

/-- Structure of the generic cell cleaner output. -/
theorem genCellClean_out (v : Cell) :
    ∃ s : String, genCellClean v = .str s ∧
      (∀ c ∈ s.data, isQuotePlusSpace c = false) ∧ trimChars s.data = s.data := by
  refine ⟨pyTrim (String.mk ((toStrOrEmpty v).data.filter (fun c => !isQuotePlusSpace c))),
    rfl, ?_, ?_⟩
  · intro c hc
    have hc2 := mem_of_mem_trimChars hc
    have := List.of_mem_filter hc2
    simpa using this
  · exact trimChars_idem _

/-- The generic cleaner fixes quote-free, trimmed strings. -/
theorem genCellClean_fix {s : String}
    (hq : ∀ c ∈ s.data, isQuotePlusSpace c = false)
    (ht : trimChars s.data = s.data) : genCellClean (.str s) = .str s := by
  unfold genCellClean toStrOrEmpty
  have h1 : pd_isna (.str s) = false := rfl
  rw [h1]
  show Cell.str (pyTrim (String.mk (s.data.filter (fun c => !isQuotePlusSpace c)))) = _
  have h2 : s.data.filter (fun c => !isQuotePlusSpace c) = s.data :=
    List.filter_eq_self.mpr (fun c hc => by simp [hq c hc])
  rw [h2]
  unfold pyTrim
  show Cell.str (String.mk (trimChars (String.mk s.data).data)) = _
  have h3 : (String.mk s.data).data = s.data := rfl
  rw [h3, ht, string_mk_data]

/-- The nan-like replacement preserves quote-freeness and trimmedness. -/
theorem replNanStr_out {s : String}
    (hq : ∀ c ∈ s.data, isQuotePlusSpace c = false)
    (ht : trimChars s.data = s.data) :
    (∀ c ∈ (replNanStr s).data, isQuotePlusSpace c = false) ∧
      trimChars (replNanStr s).data = (replNanStr s).data := by
  unfold replNanStr
  split
  · exact ⟨by intro c hc; simp at hc, rfl⟩
  · exact ⟨hq, ht⟩

/-- After cleaning object columns and fixing dtypes, a second object-column
cleaning pass changes nothing. -/
theorem cleanObjectCols_after_fix (x : Table) :
    cleanObjectCols (fix_arrow_compatibility (cleanObjectCols x)) =
      fix_arrow_compatibility (cleanObjectCols x) := by
  show Table.mk (cleanObjectCols x).cols _ = Table.mk (cleanObjectCols x).cols _
  congr 1
  show ((x.rows.map _).map _).map _ = (x.rows.map _).map _
  rw [List.map_map, List.map_map, List.map_map]
  apply List.map_congr_left
  intro lr1 _
  show (lr1.1, (List.range x.cols.length).map (fun j =>
      (if colIsObject (fix_arrow_compatibility (cleanObjectCols x)) j then genCellClean else id)
        (cellAt ((List.range x.cols.length).map (fun j2 => fixColFn (cleanObjectCols x) j2
          (cellAt ((List.range x.cols.length).map (fun j3 =>
            (if colIsObject x j3 then genCellClean else id) (cellAt lr1.2 j3))) j2))) j))) =
    (lr1.1, (List.range x.cols.length).map (fun j => fixColFn (cleanObjectCols x) j
      (cellAt ((List.range x.cols.length).map (fun j3 =>
        (if colIsObject x j3 then genCellClean else id) (cellAt lr1.2 j3))) j)))
  refine Prod.ext rfl ?_
  show (List.range x.cols.length).map _ = (List.range x.cols.length).map _
  apply List.map_congr_left
  intro j hjm
  rw [List.mem_range] at hjm
  rw [cellAt_range_map _ _ _ hjm, cellAt_range_map _ _ _ hjm]
  have hjm2 : j < (cleanObjectCols x).cols.length := hjm
  have hoz : colIsObject (fix_arrow_compatibility (cleanObjectCols x)) j =
      colIsObject x j := by
    rw [colIsObject_fix_arrow _ _ hjm2]
    exact colIsObject_cleanObjectCols x j hjm
  by_cases hb : colIsObject x j = true
  · rw [hoz, hb]
    simp only [if_pos]
    unfold fixColFn
    rw [colIsObject_cleanObjectCols x j hjm, hb]
    simp only [if_pos]
    obtain ⟨s0, hs0, hq0, ht0⟩ := genCellClean_out (cellAt lr1.2 j)
    rw [hs0]
    show genCellClean (.str (replNanStr s0)) = .str (replNanStr s0)
    obtain ⟨hq2, ht2⟩ := replNanStr_out hq0 ht0
    exact genCellClean_fix hq2 ht2
  · rw [hoz, Bool.eq_false_iff.mpr hb]
    simp

/-- Underscore substitution after upper-casing never yields whitespace. -/
theorem char_g_not_ws (c : Char) (h : isWs c = false) :
    isWs (if Char.toUpper c = ' ' then '_' else Char.toUpper c) = false := by
  by_cases he : Char.toUpper c = ' '
  · rw [if_pos he]
    decide
  · rw [if_neg he, isWs_toUpper]
    exact h

/-- The characters of a standardized column name. -/
theorem colNameStd_data (s : String) :
    (colNameStd s).data = (trimChars s.data).map
      (fun c => if Char.toUpper c = ' ' then '_' else Char.toUpper c) := by
  show ((trimChars s.data).map Char.toUpper).map (fun c => if c = ' ' then '_' else c) = _
  rw [List.map_map]
  rfl

/-- Column-name standardization is idempotent. -/
theorem colNameStd_idem (s : String) : colNameStd (colNameStd s) = colNameStd s := by
  have htrim : pyTrim (colNameStd s) = colNameStd s := by
    unfold pyTrim
    have h0 : trimChars (colNameStd s).data = (colNameStd s).data := by
      apply trimChars_eq_self
      · intro c hc
        rw [colNameStd_data, List.head?_map] at hc
        obtain ⟨c0, hc0, rfl⟩ := Option.map_eq_some'.mp hc
        exact char_g_not_ws c0 (trimChars_head?_not_ws _ hc0)
      · intro c hc
        rw [colNameStd_data, List.getLast?_map] at hc
        obtain ⟨c0, hc0, rfl⟩ := Option.map_eq_some'.mp hc
        exact char_g_not_ws c0 (trimChars_getLast?_not_ws _ hc0)
    rw [h0, string_mk_data]
  have hupper : pyUpper (colNameStd s) = colNameStd s := by
    unfold pyUpper
    have h0 : (colNameStd s).data.map Char.toUpper = (colNameStd s).data := by
      rw [colNameStd_data, List.map_map]
      apply List.map_congr_left
      intro c _
      show Char.toUpper (if Char.toUpper c = ' ' then '_' else Char.toUpper c) =
        (if Char.toUpper c = ' ' then '_' else Char.toUpper c)
      by_cases he : Char.toUpper c = ' '
      · rw [if_pos he]
        decide
      · rw [if_neg he]
        exact toUpper_toUpper c
    rw [h0, string_mk_data]
  have hsp : spaceToUnderscore (colNameStd s) = colNameStd s := by
    unfold spaceToUnderscore
    have h0 : (colNameStd s).data.map (fun c => if c = ' ' then '_' else c) =
        (colNameStd s).data := by
      rw [colNameStd_data, List.map_map]
      apply List.map_congr_left
      intro c _
      show (fun x => if x = ' ' then '_' else x)
        (if Char.toUpper c = ' ' then '_' else Char.toUpper c) =
        (if Char.toUpper c = ' ' then '_' else Char.toUpper c)
      by_cases he : Char.toUpper c = ' '
      · rw [if_pos he]
        decide
      · rw [if_neg he]
        show (if Char.toUpper c = ' ' then '_' else Char.toUpper c) = _
        rw [if_neg he]
    rw [h0, string_mk_data]
  show spaceToUnderscore (pyUpper (pyTrim (colNameStd s))) = _
  rw [htrim, hupper, hsp]

/-- The table component of clean_generic_sheet. -/
theorem clean_generic_fst (t : Table) :
    (clean_generic_sheet t).1 = fix_arrow_compatibility (cleanObjectCols
      (if 2 ≤ (Table.mk (t.cols.map colNameStd) t.rows).cols.length
       then selectCols (Table.mk (t.cols.map colNameStd) t.rows)
              (swapFirstTwo (Table.mk (t.cols.map colNameStd) t.rows).cols)
       else Table.mk (t.cols.map colNameStd) t.rows)) := rfl

/-- clean_generic_sheet on a table with fewer than two columns: no swap runs. -/
theorem clean_generic_fst_small (t : Table) (h : t.cols.length < 2) :
    (clean_generic_sheet t).1 =
      fix_arrow_compatibility (cleanObjectCols (Table.mk (t.cols.map colNameStd) t.rows)) := by
  rw [clean_generic_fst]
  rw [if_neg (by simpa using (by omega : ¬ 2 ≤ t.cols.length))]
/-- clean_generic_sheet is idempotent on tables with fewer than two columns. -/
theorem clean_generic_idem_small (t : Table) (h : t.cols.length < 2) :
    (clean_generic_sheet (clean_generic_sheet t).1).1 = (clean_generic_sheet t).1 := by
  rw [clean_generic_fst_small t h]
  have hucols : (fix_arrow_compatibility (cleanObjectCols
      (Table.mk (t.cols.map colNameStd) t.rows))).cols = t.cols.map colNameStd := rfl
  have hlen2 : (fix_arrow_compatibility (cleanObjectCols
      (Table.mk (t.cols.map colNameStd) t.rows))).cols.length < 2 := by
    rw [hucols]
    simpa using h
  rw [clean_generic_fst_small _ hlen2]
  have hstd : (fix_arrow_compatibility (cleanObjectCols
      (Table.mk (t.cols.map colNameStd) t.rows))).cols.map colNameStd =
      (fix_arrow_compatibility (cleanObjectCols
        (Table.mk (t.cols.map colNameStd) t.rows))).cols := by
    rw [hucols, List.map_map]
    apply List.map_congr_left
    intro c _
    exact colNameStd_idem c
  rw [hstd]
  have heta : Table.mk (fix_arrow_compatibility (cleanObjectCols
      (Table.mk (t.cols.map colNameStd) t.rows))).cols
      (fix_arrow_compatibility (cleanObjectCols
        (Table.mk (t.cols.map colNameStd) t.rows))).rows =
      fix_arrow_compatibility (cleanObjectCols (Table.mk (t.cols.map colNameStd) t.rows)) := rfl
  rw [heta, cleanObjectCols_after_fix, fix_arrow_idem]

/-- C7 counterexample: clean_generic_sheet swaps the first two columns on
every application, so a second run swaps them back and the result differs
from a single run. -/
theorem c7_generic_not_idempotent_cex :
    (clean_generic_sheet c7Table).1.cols = ["B", "A"] ∧
    (clean_generic_sheet (clean_generic_sheet c7Table).1).1.cols = ["A", "B"] ∧
    (clean_generic_sheet (clean_generic_sheet c7Table).1).1 ≠ (clean_generic_sheet c7Table).1 := by
  refine ⟨rfl, rfl, by decide⟩

/-- C7 (amended): clean_master_yazaki is idempotent on every table; both
cleaners are pure functions of the input; clean_generic_sheet, however, is
idempotent only on tables with fewer than two columns, because the
first-two-column swap inverts itself on a second application. -/
theorem c7_cleaner_idempotence :
    (∀ t : Table, (clean_master_yazaki (clean_master_yazaki t).1).1 = (clean_master_yazaki t).1) ∧
    (∀ t : Table, t.cols.length < 2 →
       (clean_generic_sheet (clean_generic_sheet t).1).1 = (clean_generic_sheet t).1) :=
  ⟨clean_master_idem, clean_generic_idem_small⟩

/-- C7 witness: both idempotence statements applied at concrete tables. -/
theorem c7_cleaner_idempotence_witness :
    (clean_master_yazaki (clean_master_yazaki c7Table).1).1 = (clean_master_yazaki c7Table).1 ∧
    (clean_generic_sheet (clean_generic_sheet c7OneCol).1).1 = (clean_generic_sheet c7OneCol).1 :=
  ⟨c7_cleaner_idempotence.1 c7Table, c7_cleaner_idempotence.2 c7OneCol (by decide)⟩
